import Mathlib

/-!
Verification of the question/answer correlation engine and RPC dispatcher of
the mcp-communicator-telegram server (src/index.ts), as a shallow embedding.

The embedding covers:
* the tag format and the reply regex parse (lines 49-54, 138-149);
* the correlation registry (the pendingQuestions map and the lastQuestionId
  slot) and the inbound-message handler (lines 21-22, 41-75);
* an event-loop transition system for the interleaving of askUser calls
  (lines 132-164), notifyUser calls (lines 116-130) and inbound messages;
* the line framing of the stdin stream (lines 274-297) and the request
  router with its tool catalogue (lines 299-507);
* the zip_project handler's file cleanup discipline (lines 190-255, 436-480).
-/

/-- The character class of the tag regex, [a-z0-9]. -/
def isTagChar (c : Char) : Bool :=
  decide ((97 ≤ c.toNat ∧ c.toNat ≤ 122) ∨ (48 ≤ c.toNat ∧ c.toNat ≤ 57))

/-- Attempt of the JS regex /#([a-z0-9]+)\n/ at the start of the text:
a hash sign, then a maximal nonempty run of [a-z0-9], then a newline.
Greedy matching with backtracking degenerates to the maximal run here,
because every shorter nonempty run is followed by a tag character, never
by a newline. -/
def matchTagAt : List Char → Option String
  | [] => none
  | c :: rest =>
    if c = '#' then
      match rest.takeWhile isTagChar, rest.dropWhile isTagChar with
      | [], _ => none
      | run :: runs, nl :: _ => if nl = '\n' then some (String.mk (run :: runs)) else none
      | _ :: _, [] => none
    else none

/-- Leftmost match of /#([a-z0-9]+)\n/ over the whole text, returning the
captured group, as String.prototype.match does at line 50. -/
def findTag : List Char → Option String
  | [] => none
  | c :: rest =>
    match matchTagAt (c :: rest) with
    | some s => some s
    | none => findTag rest

/-- A base-36 digit as produced by Number.prototype.toString(36):
0-9 then lowercase a-z. -/
def digitChar36 (d : Fin 36) : Char :=
  if d.val < 10 then Char.ofNat (48 + d.val) else Char.ofNat (87 + d.val)

/-- The text of x.toString(36) for a value x of Math.random() in [0, 1),
given the finite list ds of fractional base-36 digits of its shortest
representation: "0" when x = 0 (ds empty), "0." followed by the digits
otherwise. -/
def jsToString36 (ds : List (Fin 36)) : List Char :=
  match ds with
  | [] => ['0']
  | _ :: _ => '0' :: '.' :: ds.map digitChar36

/-- The question identity generated at line 138:
Math.random().toString(36).substring(7), i.e. the base-36 fractional
digits with the first five of them (and the "0." prefix) removed. -/
def genId (ds : List (Fin 36)) : String :=
  String.mk ((jsToString36 ds).drop 7)

/-- Whether a string is a nonempty [a-z0-9] token. -/
def isTagToken (s : String) : Bool :=
  (decide (s.data ≠ [])) && s.data.all isTagChar

/-- The tagged outbound text built at line 144. -/
def taggedText (qid question : String) : String :=
  "#" ++ qid ++ "\n" ++ question

/-- The correlation registry: the pendingQuestions map (association list,
keys unique, insertion order as a JS Map) holding for each outstanding
identity the token of its waiting continuation, and the lastQuestionId
slot (lines 21-22). -/
structure BotState where
  pendingQuestions : List (String × Nat)
  lastQuestionId : Option String
deriving DecidableEq

/-- Lookup in the association list, first entry with the key. -/
def lookupKey (k : String) : List (String × Nat) → Option Nat
  | [] => none
  | p :: ps => if p.1 = k then some p.2 else lookupKey k ps

/-- Map.delete: remove the entry with the key. -/
def eraseKey (k : String) : List (String × Nat) → List (String × Nat)
  | [] => []
  | p :: ps => if p.1 = k then ps else p :: eraseKey k ps

/-- Map.set: update in place if present, append if absent. -/
def setEntry : List (String × Nat) → String → Nat → List (String × Nat)
  | [], k, v => [(k, v)]
  | p :: ps, k, v => if p.1 = k then (k, v) :: ps else p :: setEntry ps k v

/-- An inbound chat message as the handler sees it: origin chat id (as a
string), optional text, optional text of the quoted message. -/
structure Message where
  chatId : String
  text : Option String
  replyToText : Option String
deriving DecidableEq

/-- The resolve operation inlined at lines 64-74: if the identity is in the
map, invoke its continuation with the answer (reported as the third
component), delete the entry, and null out lastQuestionId unconditionally;
otherwise do nothing. The Boolean reports whether a match was found. -/
def resolveCore (st : BotState) (qid answer : String) : BotState × Bool × Option (Nat × String) :=
  match lookupKey qid st.pendingQuestions with
  | some tok => (⟨eraseKey qid st.pendingQuestions, none⟩, true, some (tok, answer))
  | none => (st, false, none)

/-- The identity parsed from the quoted message, lines 49-54. A missing or
empty quoted text yields none (the regex cannot match the empty string,
so the falsiness test on the quoted text is absorbed). -/
def replyTag (msg : Message) : Option String :=
  match msg.replyToText with
  | none => none
  | some t => findTag t.data

/-- The candidate identity, lines 47-59: the parse of the quoted text when
it succeeds, else the lastQuestionId fallback. -/
def candidateOf (st : BotState) (msg : Message) : Option String :=
  match replyTag msg with
  | some q => some q
  | none => st.lastQuestionId

/-- The message handler, lines 41-75. Rejects messages from another chat or
without (nonempty) text; otherwise resolves the candidate identity when it
is truthy and present in the map. Returns the new registry state and the
continuation invocation (token, answer) if any. -/
def handleMessage (cfg : String) (st : BotState) (msg : Message) : BotState × Option (Nat × String) :=
  match msg.text with
  | none => (st, none)
  | some t =>
    if msg.chatId = cfg ∧ t ≠ "" then
      match candidateOf st msg with
      | none => (st, none)
      | some q =>
        if q = "" then (st, none)
        else
          let r := resolveCore st q t
          (r.1, r.2.2)
    else (st, none)

/-! ## The RPC layer: tool catalogue and request routing (lines 299-507) -/

/-- One property of a tool input schema: name, type, description. -/
structure ToolProp where
  propName : String
  propType : String
  propDescription : String
deriving DecidableEq

/-- One entry of the tools/list catalogue. -/
structure Tool where
  name : String
  description : String
  properties : List ToolProp
  required : List String
deriving DecidableEq

/-- The static tool catalogue of the tools/list response, lines 329-386. -/
def toolsCatalogue : List Tool :=
  [⟨"ask_user", "Ask the user a question via Telegram and wait for their response",
      [⟨"question", "string", "The question to ask the user"⟩], ["question"]⟩,
   ⟨"notify_user", "Send a notification message to the user via Telegram (no response required)",
      [⟨"message", "string", "The message to send to the user"⟩], ["message"]⟩,
   ⟨"send_file", "Send a file to the user via Telegram",
      [⟨"filePath", "string", "The path to the file to send"⟩], ["filePath"]⟩,
   ⟨"zip_project", "Zip a project directory and send it to the user",
      [⟨"directory", "string", "Directory to zip (defaults to current working directory)"⟩], []⟩]

/-- A response frame written by sendResponse. -/
inductive RpcResponse where
  | initResult (id : Nat) (protocolVersion serverName serverVersion : String)
  | toolsResult (id : Nat) (tools : List Tool)
  | callResult (id : Nat) (text : String)
  | rpcError (id : Nat) (code : Int) (message : String)
deriving DecidableEq

/-- The id a response frame is addressed to. -/
def ridOf : RpcResponse → Nat
  | RpcResponse.initResult i _ _ _ => i
  | RpcResponse.toolsResult i _ => i
  | RpcResponse.callResult i _ => i
  | RpcResponse.rpcError i _ _ => i

/-- The arguments object of a tools/call request. -/
structure ToolArgs where
  question : Option String
  message : Option String
  filePath : Option String
  directory : Option String
deriving DecidableEq

/-- The params object of a tools/call request. -/
structure CallParams where
  name : String
  args : ToolArgs
deriving DecidableEq

/-- A parsed request frame. -/
structure Request where
  id : Nat
  method : String
  params : CallParams

/-- Outcomes of the awaited tool handlers (the external transport effects):
each handler either returns or throws an error message. -/
structure ToolRun where
  ask : ToolArgs → Except String String
  notify : ToolArgs → Except String Unit
  sendFileRun : ToolArgs → Except String Unit
  zipRun : ToolArgs → Except String Unit

/-- The tools/call dispatch, lines 391-494: route on the tool name, wrap a
handler success as a content response and a thrown error as a -32000 error
response; an unknown name throws "Unknown tool: ..." into the same catch. -/
def callToolModel (run : ToolRun) (req : Request) : RpcResponse :=
  if req.params.name = "ask_user" then
    match run.ask req.params.args with
    | Except.ok a => RpcResponse.callResult req.id a
    | Except.error m => RpcResponse.rpcError req.id (-32000) m
  else if req.params.name = "notify_user" then
    match run.notify req.params.args with
    | Except.ok _ => RpcResponse.callResult req.id "Notification sent successfully"
    | Except.error m => RpcResponse.rpcError req.id (-32000) m
  else if req.params.name = "send_file" then
    match run.sendFileRun req.params.args with
    | Except.ok _ => RpcResponse.callResult req.id "File sent successfully"
    | Except.error m => RpcResponse.rpcError req.id (-32000) m
  else if req.params.name = "zip_project" then
    match run.zipRun req.params.args with
    | Except.ok _ => RpcResponse.callResult req.id "Project zipped and sent successfully"
    | Except.error m => RpcResponse.rpcError req.id (-32000) m
  else RpcResponse.rpcError req.id (-32000) ("Unknown tool: " ++ req.params.name)

/-- The method router, lines 299-507. -/
def handleRequestModel (run : ToolRun) (req : Request) : RpcResponse :=
  if req.method = "initialize" then
    RpcResponse.initResult req.id "2024-11-05" "mcp-communicator-telegram" "0.2.1"
  else if req.method = "tools/list" then
    RpcResponse.toolsResult req.id toolsCatalogue
  else if req.method = "tools/call" then
    callToolModel run req
  else
    RpcResponse.rpcError req.id (-32601) ("Method not found: " ++ req.method)

/-! ## Stream framing (lines 274-297) -/

/-- Split a character stream at newline delimiters, as String.prototype.split
of the buffer: always a nonempty list, the last element being the text after
the final delimiter. -/
def splitNl : List Char → List (List Char)
  | [] => [[]]
  | c :: cs =>
    if c = '\n' then [] :: splitNl cs
    else
      match splitNl cs with
      | [] => [[c]]
      | l :: ls => (c :: l) :: ls

/-- One data event of handleInput, lines 274-277: append the chunk to the
buffer, split at newlines, keep the trailing partial line as the new buffer
and emit the complete frames. -/
def processChunk (buf chunk : List Char) : List (List Char) × List Char :=
  let parts := splitNl (buf ++ chunk)
  (parts.dropLast, parts.getLastD [])

/-- Run the chunk loop over a list of arriving chunks, starting from the
given buffer, collecting all emitted frames and the final buffer. -/
def feedFrom (buf : List Char) : List (List Char) → List (List Char) × List Char
  | [] => ([], buf)
  | c :: cs =>
    let fc := processChunk buf c
    let rest := feedFrom fc.2 cs
    (fc.1 ++ rest.1, rest.2)

/-- The per-frame loop of handleInput, lines 279-296: parse each frame; a
parse failure is logged and dropped (no response), a parsed request is
dispatched. The parse function stands for the external JSON.parse. -/
def handleFrames (parse : List Char → Option Request) (run : ToolRun) :
    List (List Char) → List RpcResponse
  | [] => []
  | f :: fs =>
    match parse f with
    | none => handleFrames parse run fs
    | some req => handleRequestModel run req :: handleFrames parse run fs

/-! ## Event-loop transition system for askUser / notifyUser / inbound
messages (lines 116-164 wired to the dispatcher).

An askUser call runs as: generate the identity, overwrite lastQuestionId
(line 139), await the transport send (line 144); on send success register
the continuation in the map (line 154) and await it; on send failure throw
into the tools/call catch, which emits the -32000 error response. An
inbound message event runs handleMessage atomically. Response emission for
a resolved ask is a separate microtask step. -/

/-- Phases of one askUser call. -/
inductive Phase where
  | sentPending
  | waiting
  | failed
  | done (answer : String)
  | responded (answer : String)
deriving DecidableEq

/-- One in-flight askUser call: its continuation token (tid), its question
identity, the RPC request id it serves, and its phase. -/
structure AskTask where
  tid : Nat
  qid : String
  reqId : Nat
  phase : Phase
deriving DecidableEq

/-- Phases of one notifyUser call. -/
inductive NPhase where
  | nsending
  | ndone
deriving DecidableEq

/-- One in-flight notifyUser call. -/
structure NotifyTask where
  reqId : Nat
  nphase : NPhase
deriving DecidableEq

/-- The whole event-loop state: the registry (shared mutable state), the
in-flight tasks, a fresh-token counter, the history of continuation
invocations, and the emitted response frames. -/
structure SysState where
  pendingQuestions : List (String × Nat)
  lastQuestionId : Option String
  tasks : List AskTask
  notifies : List NotifyTask
  nextTid : Nat
  resolved : List (Nat × String)
  responses : List RpcResponse
deriving DecidableEq

/-- The state at process start. -/
def startState : SysState := ⟨[], none, [], [], 0, [], []⟩

/-- Request ids already taken by a task or a response. -/
def usedReqIds (s : SysState) : List Nat :=
  s.tasks.map AskTask.reqId ++ s.notifies.map NotifyTask.reqId ++ s.responses.map ridOf

/-- Set the phase of the task with the given token. -/
def setPhase (tasks : List AskTask) (tid : Nat) (ph : Phase) : List AskTask :=
  tasks.map fun t => if t.tid = tid then { t with phase := ph } else t

/-- Set the phase of the notify task with the given request id. -/
def setNPhase (ns : List NotifyTask) (reqId : Nat) (ph : NPhase) : List NotifyTask :=
  ns.map fun n => if n.reqId = reqId then { n with nphase := ph } else n

/-- An ask_user call starts: lines 138-139 run synchronously (identity
generated from the digits ds of the Math.random() value, lastQuestionId
overwritten), then the call suspends on the transport send. -/
def doAskStart (s : SysState) (reqId : Nat) (ds : List (Fin 36)) : SysState :=
  { s with lastQuestionId := some (genId ds),
           tasks := s.tasks ++ [⟨s.nextTid, genId ds, reqId, Phase.sentPending⟩],
           nextTid := s.nextTid + 1 }

/-- The transport send of a question succeeds: the continuation is
registered in the map (line 154) and the call awaits the answer. -/
def doSendOk (s : SysState) (t : AskTask) : SysState :=
  { s with pendingQuestions := setEntry s.pendingQuestions t.qid t.tid,
           tasks := setPhase s.tasks t.tid Phase.waiting }

/-- The transport send of a question fails: askUser throws (lines 160-163)
before any registration, and the tools/call catch emits the error response
(lines 485-493). -/
def doSendFail (s : SysState) (t : AskTask) (m : String) : SysState :=
  { s with tasks := setPhase s.tasks t.tid Phase.failed,
           responses := s.responses ++
             [RpcResponse.rpcError t.reqId (-32000) ("Failed to get response: " ++ m)] }

/-- An inbound chat message is delivered: handleMessage runs atomically on
the registry; a resolved continuation moves its task to the done phase and
is recorded in the invocation history. -/
def doDeliver (cfg : String) (s : SysState) (msg : Message) : SysState :=
  let r := handleMessage cfg ⟨s.pendingQuestions, s.lastQuestionId⟩ msg
  match r.2 with
  | none =>
    { s with pendingQuestions := r.1.pendingQuestions, lastQuestionId := r.1.lastQuestionId }
  | some (tok, ans) =>
    { s with pendingQuestions := r.1.pendingQuestions,
             lastQuestionId := r.1.lastQuestionId,
             tasks := setPhase s.tasks tok (Phase.done ans),
             resolved := s.resolved ++ [(tok, ans)] }

/-- The resolved askUser call returns the answer, and the tools/call branch
emits the content response (lines 394-405). -/
def doAskRespond (s : SysState) (t : AskTask) (a : String) : SysState :=
  { s with tasks := setPhase s.tasks t.tid (Phase.responded a),
           responses := s.responses ++ [RpcResponse.callResult t.reqId a] }

/-- A notify_user call starts and suspends on the transport send. -/
def doNotifyStart (s : SysState) (reqId : Nat) : SysState :=
  { s with notifies := s.notifies ++ [⟨reqId, NPhase.nsending⟩] }

/-- The notification send succeeds (lines 408-419). -/
def doNotifyOk (s : SysState) (n : NotifyTask) : SysState :=
  { s with notifies := setNPhase s.notifies n.reqId NPhase.ndone,
           responses := s.responses ++
             [RpcResponse.callResult n.reqId "Notification sent successfully"] }

/-- The notification send fails (lines 126-129, 485-493). -/
def doNotifyFail (s : SysState) (n : NotifyTask) (m : String) : SysState :=
  { s with notifies := setNPhase s.notifies n.reqId NPhase.ndone,
           responses := s.responses ++
             [RpcResponse.rpcError n.reqId (-32000) ("Failed to send notification: " ++ m)] }

/-- A tools/list request is handled synchronously (lines 324-389). -/
def doToolsList (s : SysState) (reqId : Nat) : SysState :=
  { s with responses := s.responses ++ [RpcResponse.toolsResult reqId toolsCatalogue] }

/-- One event-loop step. The transport and the dispatcher interleave freely
with in-flight calls; a request id entering the system must be fresh. -/
inductive Step (cfg : String) : SysState → SysState → Prop
  | askStart {s : SysState} (reqId : Nat) (ds : List (Fin 36))
      (h : reqId ∉ usedReqIds s) : Step cfg s (doAskStart s reqId ds)
  | sendOk {s : SysState} (t : AskTask) (ht : t ∈ s.tasks)
      (hp : t.phase = Phase.sentPending) : Step cfg s (doSendOk s t)
  | sendFail {s : SysState} (t : AskTask) (m : String) (ht : t ∈ s.tasks)
      (hp : t.phase = Phase.sentPending) : Step cfg s (doSendFail s t m)
  | deliver {s : SysState} (msg : Message) : Step cfg s (doDeliver cfg s msg)
  | askRespond {s : SysState} (t : AskTask) (a : String) (ht : t ∈ s.tasks)
      (hp : t.phase = Phase.done a) : Step cfg s (doAskRespond s t a)
  | notifyStart {s : SysState} (reqId : Nat)
      (h : reqId ∉ usedReqIds s) : Step cfg s (doNotifyStart s reqId)
  | notifyOk {s : SysState} (n : NotifyTask) (hn : n ∈ s.notifies)
      (hp : n.nphase = NPhase.nsending) : Step cfg s (doNotifyOk s n)
  | notifyFail {s : SysState} (n : NotifyTask) (m : String) (hn : n ∈ s.notifies)
      (hp : n.nphase = NPhase.nsending) : Step cfg s (doNotifyFail s n m)
  | listTools {s : SysState} (reqId : Nat)
      (h : reqId ∉ usedReqIds s) : Step cfg s (doToolsList s reqId)

/-- The states the event loop can reach from process start. -/
inductive Reachable (cfg : String) : SysState → Prop
  | start : Reachable cfg startState
  | step {s s' : SysState} : Reachable cfg s → Step cfg s s' → Reachable cfg s'

/-- A request id strictly larger than every used one. -/
def freshReqId (s : SysState) : Nat :=
  (usedReqIds s).foldr Nat.max 0 + 1

/-! ## The zip_project handler's file discipline (lines 190-255, 436-480) -/

/-- Whether the archive file is present at its output path. -/
structure FsState where
  zipExists : Bool
deriving DecidableEq

/-- Filesystem events on the archive path, in order of occurrence. -/
inductive FsEvent where
  | deleteZip
  | createZip
deriving DecidableEq

/-- Outcome of the zipProject call: archive written and under the size
limit; some failure after the output stream was created (archiver error or
a filesystem error while walking the tree); or an archive over the 2 GB
limit, which zipProject itself unlinks before throwing (lines 247-254). -/
inductive ZipOutcome where
  | zipOk
  | zipFail (m : String)
  | oversize
deriving DecidableEq

/-- Outcome of the sendFile call on the archive. -/
inductive SendOutcome where
  | sendOk
  | sendErr (m : String)
deriving DecidableEq

/-- Delete the archive if it is present (the existsSync/unlinkSync pairs at
lines 443-449, 455-457 and 470-476). -/
def fsCleanup (fs : FsState) : FsState × List FsEvent :=
  if fs.zipExists then (⟨false⟩, [FsEvent.deleteZip]) else (fs, [])

/-- The zipProject call, lines 190-255: the output stream creates the file,
then the archive either completes, fails, or exceeds 2 GB (in which case it
is unlinked and an error is thrown). Returns the filesystem state, the
events, and the thrown error if any. -/
def zipProjectModel (z : ZipOutcome) : FsState × List FsEvent × Option String :=
  match z with
  | ZipOutcome.zipOk => (⟨true⟩, [FsEvent.createZip], none)
  | ZipOutcome.zipFail m => (⟨true⟩, [FsEvent.createZip], some m)
  | ZipOutcome.oversize =>
      (⟨false⟩, [FsEvent.createZip, FsEvent.deleteZip],
       some "File size exceeds 2GB limit. Please implement file splitting or reduce the project size.")

/-- The zip_project branch of tools/call, lines 436-480: delete any
pre-existing archive, build the archive, send it, delete it after a
successful send, and delete it (if present) after any failure before the
error response is emitted. -/
def zipCallModel (fs0 : FsState) (z : ZipOutcome) (snd : SendOutcome) (reqId : Nat) :
    FsState × List FsEvent × RpcResponse :=
  let pre := fsCleanup fs0
  let zr := zipProjectModel z
  match zr.2.2 with
  | some m =>
    let post := fsCleanup zr.1
    (post.1, pre.2 ++ zr.2.1 ++ post.2, RpcResponse.rpcError reqId (-32000) m)
  | none =>
    match snd with
    | SendOutcome.sendOk =>
      let post := fsCleanup zr.1
      (post.1, pre.2 ++ zr.2.1 ++ post.2,
        RpcResponse.callResult reqId "Project zipped and sent successfully")
    | SendOutcome.sendErr m =>
      let post := fsCleanup zr.1
      (post.1, pre.2 ++ zr.2.1 ++ post.2,
        RpcResponse.rpcError reqId (-32000) ("Failed to send file: " ++ m))

/-- The concrete digit list whose generated identity is "a". -/
def dsA : List (Fin 36) := [0, 0, 0, 0, 0, 10]

/-- How the response frames addressed to an ask_user request may look: the
content response carrying the answer once the call is resolved, or the
send-failure error. -/
def askRespOk (t : AskTask) (r : RpcResponse) : Prop :=
  (∃ a, t.phase = Phase.responded a ∧ r = RpcResponse.callResult t.reqId a)
  ∨ (∃ m, t.phase = Phase.failed ∧
      r = RpcResponse.rpcError t.reqId (-32000) ("Failed to get response: " ++ m))

/-- The inductive invariant of the event loop. -/
structure SysInv (s : SysState) : Prop where
  tidsNodup : (s.tasks.map AskTask.tid).Nodup
  tidsLt : ∀ t ∈ s.tasks, t.tid < s.nextTid
  keysNodup : (s.pendingQuestions.map Prod.fst).Nodup
  valsNodup : (s.pendingQuestions.map Prod.snd).Nodup
  mapWaiting : ∀ p ∈ s.pendingQuestions,
    ∃ t ∈ s.tasks, t.tid = p.2 ∧ t.qid = p.1 ∧ t.phase = Phase.waiting
  waitingFresh : ∀ t ∈ s.tasks, t.phase = Phase.waiting → t.tid ∉ s.resolved.map Prod.fst
  resolvedDone : ∀ p ∈ s.resolved,
    ∃ t ∈ s.tasks, t.tid = p.1 ∧ ∃ a, t.phase = Phase.done a ∨ t.phase = Phase.responded a
  resolvedNodup : (s.resolved.map Prod.fst).Nodup
  lastOk : ∀ q, s.lastQuestionId = some q →
    (lookupKey q s.pendingQuestions).isSome = true
    ∨ ∃ t ∈ s.tasks, t.qid = q ∧ (t.phase = Phase.sentPending ∨ t.phase = Phase.failed)
  reqNodup : (s.tasks.map AskTask.reqId ++ s.notifies.map NotifyTask.reqId).Nodup
  respChar : ∀ t ∈ s.tasks, ∀ r ∈ s.responses, ridOf r = t.reqId → askRespOk t r

/-- Prepend a prefix onto the first element of a list of lines (the gluing
of a buffered partial line onto the next split). -/
def mergeHead (p : List Char) : List (List Char) → List (List Char)
  | [] => [p]
  | x :: xs => (p ++ x) :: xs

/-! ## Helper lemmas about the association list operations -/

theorem lookupKey_mem {k : String} {m : List (String × Nat)} {v : Nat}
    (h : lookupKey k m = some v) : (k, v) ∈ m := by
  induction m with
  | nil => simp [lookupKey] at h
  | cons p ps ih =>
    obtain ⟨a, b⟩ := p
    by_cases hpk : a = k
    · simp [lookupKey, hpk] at h
      subst hpk
      subst h
      exact List.mem_cons_self _ _
    · simp [lookupKey, hpk] at h
      exact List.mem_cons_of_mem _ (ih h)

theorem lookupKey_isSome_of_mem {k : String} {m : List (String × Nat)} {v : Nat}
    (h : (k, v) ∈ m) : (lookupKey k m).isSome = true := by
  induction m with
  | nil => simp at h
  | cons p ps ih =>
    rcases List.mem_cons.mp h with h1 | h2
    · simp [lookupKey, ← h1]
    · by_cases hpk : p.1 = k
      · simp [lookupKey, hpk]
      · simpa [lookupKey, hpk] using ih h2

theorem lookupKey_eq_none {k : String} {m : List (String × Nat)} :
    lookupKey k m = none ↔ k ∉ m.map Prod.fst := by
  induction m with
  | nil => simp [lookupKey]
  | cons p ps ih =>
    by_cases hpk : p.1 = k
    · simp [lookupKey, hpk]
    · simp only [lookupKey, if_neg hpk, List.map_cons, List.mem_cons, ih]
      constructor
      · intro h hk
        rcases hk with hk | hk
        · exact hpk hk.symm
        · exact h hk
      · intro h hk
        exact h (Or.inr hk)

theorem mem_eraseKey {k : String} {m : List (String × Nat)} {p : String × Nat}
    (h : p ∈ eraseKey k m) : p ∈ m := by
  induction m with
  | nil => simpa [eraseKey] using h
  | cons q qs ih =>
    by_cases hq : q.1 = k
    · simp only [eraseKey, if_pos hq] at h
      exact List.mem_cons_of_mem _ h
    · simp only [eraseKey, if_neg hq, List.mem_cons] at h
      rcases h with h | h
      · exact h ▸ List.mem_cons_self _ _
      · exact List.mem_cons_of_mem _ (ih h)

theorem eraseKey_sublist (k : String) (m : List (String × Nat)) :
    (eraseKey k m).Sublist m := by
  induction m with
  | nil => simp [eraseKey]
  | cons q qs ih =>
    by_cases hq : q.1 = k
    · simp only [eraseKey, if_pos hq]
      exact List.sublist_cons_self q qs
    · simp only [eraseKey, if_neg hq]
      exact ih.cons₂ q

theorem mem_eraseKey_ne {k : String} {m : List (String × Nat)} {p : String × Nat}
    (hnd : (m.map Prod.fst).Nodup) (h : p ∈ eraseKey k m) : p ∈ m ∧ p.1 ≠ k := by
  induction m with
  | nil => simpa [eraseKey] using h
  | cons q qs ih =>
    by_cases hq : q.1 = k
    · simp only [eraseKey, if_pos hq] at h
      refine ⟨List.mem_cons_of_mem _ h, ?_⟩
      intro hpk
      have hqk : q.1 ∉ qs.map Prod.fst := (List.nodup_cons.mp hnd).1
      exact hqk (hq ▸ hpk ▸ List.mem_map_of_mem Prod.fst h)
    · simp only [eraseKey, if_neg hq, List.mem_cons] at h
      rcases h with h | h
      · exact ⟨h ▸ List.mem_cons_self _ _, h ▸ hq⟩
      · have := ih (List.nodup_cons.mp hnd).2 h
        exact ⟨List.mem_cons_of_mem _ this.1, this.2⟩

theorem lookupKey_eraseKey_self {k : String} {m : List (String × Nat)}
    (hnd : (m.map Prod.fst).Nodup) : lookupKey k (eraseKey k m) = none := by
  rw [lookupKey_eq_none]
  intro hk
  rcases List.mem_map.mp hk with ⟨p, hp, hpk⟩
  exact (mem_eraseKey_ne hnd hp).2 hpk

theorem mem_setEntry {m : List (String × Nat)} {k : String} {v : Nat} {p : String × Nat}
    (h : p ∈ setEntry m k v) : p = (k, v) ∨ p ∈ m := by
  induction m with
  | nil => simpa [setEntry] using h
  | cons q qs ih =>
    by_cases hq : q.1 = k
    · simp only [setEntry, if_pos hq, List.mem_cons] at h
      rcases h with h | h
      · exact Or.inl h
      · exact Or.inr (List.mem_cons_of_mem _ h)
    · simp only [setEntry, if_neg hq, List.mem_cons] at h
      rcases h with h | h
      · exact Or.inr (h ▸ List.mem_cons_self _ _)
      · rcases ih h with h | h
        · exact Or.inl h
        · exact Or.inr (List.mem_cons_of_mem _ h)

theorem keys_setEntry_subset {m : List (String × Nat)} {k : String} {v : Nat} {x : String}
    (h : x ∈ (setEntry m k v).map Prod.fst) : x = k ∨ x ∈ m.map Prod.fst := by
  rcases List.mem_map.mp h with ⟨p, hp, hx⟩
  rcases mem_setEntry hp with h1 | h1
  · left; rw [← hx, h1]
  · right; exact hx ▸ List.mem_map_of_mem Prod.fst h1

theorem vals_setEntry_subset {m : List (String × Nat)} {k : String} {v : Nat} {x : Nat}
    (h : x ∈ (setEntry m k v).map Prod.snd) : x = v ∨ x ∈ m.map Prod.snd := by
  rcases List.mem_map.mp h with ⟨p, hp, hx⟩
  rcases mem_setEntry hp with h1 | h1
  · left; rw [← hx, h1]
  · right; exact hx ▸ List.mem_map_of_mem Prod.snd h1

theorem keysNodup_setEntry {m : List (String × Nat)} {k : String} {v : Nat}
    (hnd : (m.map Prod.fst).Nodup) : ((setEntry m k v).map Prod.fst).Nodup := by
  induction m with
  | nil => simp [setEntry]
  | cons q qs ih =>
    rcases List.nodup_cons.mp hnd with ⟨hq1, hq2⟩
    by_cases hq : q.1 = k
    · simp only [setEntry, if_pos hq, List.map_cons, List.nodup_cons]
      exact ⟨hq ▸ hq1, hq2⟩
    · simp only [setEntry, if_neg hq, List.map_cons, List.nodup_cons]
      refine ⟨?_, ih hq2⟩
      intro hx
      rcases keys_setEntry_subset hx with h1 | h1
      · exact hq h1
      · exact hq1 h1

theorem valsNodup_setEntry {m : List (String × Nat)} {k : String} {v : Nat}
    (hnd : (m.map Prod.snd).Nodup) (hv : v ∉ m.map Prod.snd) :
    ((setEntry m k v).map Prod.snd).Nodup := by
  induction m with
  | nil => simp [setEntry]
  | cons q qs ih =>
    rcases List.nodup_cons.mp hnd with ⟨hq1, hq2⟩
    have hv1 : v ≠ q.2 := by
      intro h; exact hv (h ▸ List.mem_cons_self _ _)
    have hv2 : v ∉ qs.map Prod.snd := fun h => hv (List.mem_cons_of_mem _ h)
    by_cases hq : q.1 = k
    · simp only [setEntry, if_pos hq, List.map_cons, List.nodup_cons]
      exact ⟨hv2, hq2⟩
    · simp only [setEntry, if_neg hq, List.map_cons, List.nodup_cons]
      refine ⟨?_, ih hq2 hv2⟩
      intro hx
      rcases vals_setEntry_subset hx with h1 | h1
      · exact hv1 h1.symm
      · exact hq1 h1

theorem lookupKey_setEntry (m : List (String × Nat)) (k k' : String) (v : Nat) :
    lookupKey k' (setEntry m k v) = if k = k' then some v else lookupKey k' m := by
  induction m with
  | nil => by_cases h : k = k' <;> simp [setEntry, lookupKey, h]
  | cons q qs ih =>
    obtain ⟨a, b⟩ := q
    by_cases hq : a = k
    · subst hq
      by_cases h : a = k'
      · subst h
        simp [setEntry, lookupKey]
      · simp [setEntry, lookupKey, h]
    · by_cases h : k = k'
      · subst h
        simp [setEntry, lookupKey, hq, ih]
      · simp [setEntry, lookupKey, hq, h, ih]

theorem lookupKey_setEntry_isSome {m : List (String × Nat)} {k k' : String} {v : Nat}
    (h : (lookupKey k' m).isSome = true) : (lookupKey k' (setEntry m k v)).isSome = true := by
  rw [lookupKey_setEntry]
  by_cases hk : k = k'
  · simp [hk]
  · simpa [hk] using h

theorem snd_eq_of_valsNodup {m : List (String × Nat)} {p q : String × Nat}
    (hnd : (m.map Prod.snd).Nodup) (hp : p ∈ m) (hq : q ∈ m) (h : p.2 = q.2) : p = q :=
  List.inj_on_of_nodup_map hnd hp hq h

theorem tid_inj {tasks : List AskTask} {t t' : AskTask}
    (hnd : (tasks.map AskTask.tid).Nodup) (ht : t ∈ tasks) (ht' : t' ∈ tasks)
    (h : t.tid = t'.tid) : t = t' :=
  List.inj_on_of_nodup_map hnd ht ht' h

theorem reqId_inj {tasks : List AskTask} {t t' : AskTask}
    (hnd : (tasks.map AskTask.reqId).Nodup) (ht : t ∈ tasks) (ht' : t' ∈ tasks)
    (h : t.reqId = t'.reqId) : t = t' :=
  List.inj_on_of_nodup_map hnd ht ht' h

/-! ## Helper lemmas about handleMessage and setPhase -/

theorem handleMessage_cases (cfg : String) (st : BotState) (msg : Message) :
    handleMessage cfg st msg = (st, none)
    ∨ ∃ q tok t, msg.text = some t ∧ msg.chatId = cfg ∧ t ≠ "" ∧
        candidateOf st msg = some q ∧ q ≠ "" ∧
        lookupKey q st.pendingQuestions = some tok ∧
        handleMessage cfg st msg = (⟨eraseKey q st.pendingQuestions, none⟩, some (tok, t)) := by
  unfold handleMessage
  cases h1 : msg.text with
  | none => left; rfl
  | some t =>
    dsimp only
    by_cases h2 : msg.chatId = cfg ∧ t ≠ ""
    · rw [if_pos h2]
      cases h3 : candidateOf st msg with
      | none => left; rfl
      | some q =>
        dsimp only
        by_cases h4 : q = ""
        · rw [if_pos h4]; left; rfl
        · rw [if_neg h4]
          unfold resolveCore
          cases h5 : lookupKey q st.pendingQuestions with
          | none => left; rfl
          | some tok =>
            dsimp only
            right; exact ⟨q, tok, t, rfl, h2.1, h2.2, rfl, h4, h5, rfl⟩
    · rw [if_neg h2]; left; rfl

theorem handleMessage_none {cfg : String} {st : BotState} {msg : Message}
    (h : (handleMessage cfg st msg).2 = none) : (handleMessage cfg st msg).1 = st := by
  rcases handleMessage_cases cfg st msg with he | ⟨q, tok, t, _, _, _, _, _, _, he⟩
  · rw [he]
  · rw [he] at h
    simp at h

theorem handleMessage_some {cfg : String} {st : BotState} {msg : Message} {tok : Nat}
    {ans : String} (h : (handleMessage cfg st msg).2 = some (tok, ans)) :
    ∃ q, msg.text = some ans ∧ msg.chatId = cfg ∧ ans ≠ "" ∧
      candidateOf st msg = some q ∧ q ≠ "" ∧
      lookupKey q st.pendingQuestions = some tok ∧
      (handleMessage cfg st msg).1 = ⟨eraseKey q st.pendingQuestions, none⟩ := by
  rcases handleMessage_cases cfg st msg with he | ⟨q, tok', t, h1, h2, h3, h4, h5, h6, he⟩
  · rw [he] at h
    simp at h
  · rw [he] at h
    simp only [Option.some.injEq, Prod.mk.injEq] at h
    refine ⟨q, ?_, h2, ?_, h4, h5, ?_, ?_⟩
    · rw [h1, h.2]
    · rw [← h.2]; exact h3
    · rw [← h.1]; exact h6
    · rw [he]

theorem setPhase_map_tid (tasks : List AskTask) (tid : Nat) (ph : Phase) :
    (setPhase tasks tid ph).map AskTask.tid = tasks.map AskTask.tid := by
  unfold setPhase
  rw [List.map_map]
  apply List.map_congr_left
  intro t _
  by_cases h : t.tid = tid <;> simp [h]

theorem setPhase_map_reqId (tasks : List AskTask) (tid : Nat) (ph : Phase) :
    (setPhase tasks tid ph).map AskTask.reqId = tasks.map AskTask.reqId := by
  unfold setPhase
  rw [List.map_map]
  apply List.map_congr_left
  intro t _
  by_cases h : t.tid = tid <;> simp [h]

theorem setNPhase_map_reqId (ns : List NotifyTask) (reqId : Nat) (ph : NPhase) :
    (setNPhase ns reqId ph).map NotifyTask.reqId = ns.map NotifyTask.reqId := by
  unfold setNPhase
  rw [List.map_map]
  apply List.map_congr_left
  intro n _
  by_cases h : n.reqId = reqId <;> simp [h]

theorem mem_setPhase {tasks : List AskTask} {tid : Nat} {ph : Phase} {t' : AskTask}
    (h : t' ∈ setPhase tasks tid ph) :
    ∃ t0 ∈ tasks, (t0.tid ≠ tid ∧ t' = t0) ∨ (t0.tid = tid ∧ t' = { t0 with phase := ph }) := by
  rcases List.mem_map.mp h with ⟨t0, ht0, heq⟩
  refine ⟨t0, ht0, ?_⟩
  by_cases hc : t0.tid = tid
  · right; exact ⟨hc, by rw [← heq]; simp [hc]⟩
  · left; exact ⟨hc, by rw [← heq]; simp [hc]⟩

theorem mem_setPhase_self {tasks : List AskTask} {t : AskTask} (ph : Phase) (h : t ∈ tasks) :
    { t with phase := ph } ∈ setPhase tasks t.tid ph := by
  have := List.mem_map_of_mem
    (fun x => if x.tid = t.tid then { x with phase := ph } else x) h
  simpa [setPhase] using this

theorem mem_setPhase_of_ne {tasks : List AskTask} {t0 : AskTask} {tid : Nat} {ph : Phase}
    (h : t0 ∈ tasks) (hne : t0.tid ≠ tid) : t0 ∈ setPhase tasks tid ph := by
  have := List.mem_map_of_mem
    (fun x => if x.tid = tid then { x with phase := ph } else x) h
  simpa [setPhase, hne] using this

theorem mem_setNPhase {ns : List NotifyTask} {reqId : Nat} {ph : NPhase} {n' : NotifyTask}
    (h : n' ∈ setNPhase ns reqId ph) : n'.reqId ∈ ns.map NotifyTask.reqId := by
  rcases List.mem_map.mp h with ⟨n0, hn0, heq⟩
  have hr : n'.reqId = n0.reqId := by
    rw [← heq]
    by_cases hc : n0.reqId = reqId <;> simp [hc]
  rw [hr]
  exact List.mem_map_of_mem NotifyTask.reqId hn0

theorem doDeliver_none {cfg : String} {s : SysState} {msg : Message}
    (h : (handleMessage cfg ⟨s.pendingQuestions, s.lastQuestionId⟩ msg).2 = none) :
    doDeliver cfg s msg = s := by
  have h1 := handleMessage_none h
  unfold doDeliver
  dsimp only
  rw [h]
  dsimp only
  rw [h1]

theorem doDeliver_some {cfg : String} {s : SysState} {msg : Message} {tok : Nat} {ans : String}
    (h : (handleMessage cfg ⟨s.pendingQuestions, s.lastQuestionId⟩ msg).2 = some (tok, ans)) :
    doDeliver cfg s msg =
      { s with
        pendingQuestions :=
          (handleMessage cfg ⟨s.pendingQuestions, s.lastQuestionId⟩ msg).1.pendingQuestions,
        lastQuestionId :=
          (handleMessage cfg ⟨s.pendingQuestions, s.lastQuestionId⟩ msg).1.lastQuestionId,
        tasks := setPhase s.tasks tok (Phase.done ans),
        resolved := s.resolved ++ [(tok, ans)] } := by
  unfold doDeliver
  dsimp only
  rw [h]

theorem nodup_insert_middle {A B : List Nat} {x : Nat} (h : (A ++ B).Nodup)
    (hx : x ∉ A) (hy : x ∉ B) : ((A ++ [x]) ++ B).Nodup := by
  induction A with
  | nil =>
    simp only [List.nil_append, List.singleton_append, List.nodup_cons]
    exact ⟨hy, by simpa using h⟩
  | cons a as ih =>
    simp only [List.cons_append, List.nodup_cons] at h ⊢
    constructor
    · intro hmem
      simp only [List.append_assoc, List.singleton_append, List.mem_append,
        List.mem_cons] at hmem
      rcases hmem with hmem | hmem | hmem
      · exact h.1 (List.mem_append_left _ hmem)
      · exact hx (hmem ▸ List.mem_cons_self a as)
      · exact h.1 (List.mem_append_right _ hmem)
    · exact ih h.2 (fun hm => hx (List.mem_cons_of_mem _ hm))

theorem sysInv_askStart {s : SysState} (hs : SysInv s) (reqId : Nat) (ds : List (Fin 36))
    (h : reqId ∉ usedReqIds s) : SysInv (doAskStart s reqId ds) := by
  have hTasks : reqId ∉ s.tasks.map AskTask.reqId := by
    intro hm; exact h (List.mem_append_left _ (List.mem_append_left _ hm))
  have hNot : reqId ∉ s.notifies.map NotifyTask.reqId := by
    intro hm; exact h (List.mem_append_left _ (List.mem_append_right _ hm))
  have hResp : reqId ∉ s.responses.map ridOf := by
    intro hm; exact h (List.mem_append_right _ hm)
  unfold doAskStart
  refine ⟨?_, ?_, ?_, ?_, ?_, ?_, ?_, ?_, ?_, ?_, ?_⟩
  · show ((s.tasks ++ [(⟨s.nextTid, genId ds, reqId, Phase.sentPending⟩ : AskTask)]).map AskTask.tid).Nodup
    rw [List.map_append]
    refine List.Nodup.append hs.tidsNodup (List.nodup_singleton _) ?_
    intro a ha hb
    rcases List.mem_map.mp ha with ⟨t, ht, rfl⟩
    have hlt := hs.tidsLt t ht
    simp only [List.map_cons, List.map_nil, List.mem_singleton] at hb
    omega
  · intro t ht
    show t.tid < s.nextTid + 1
    dsimp only at ht
    rcases List.mem_append.mp ht with ht | ht
    · have := hs.tidsLt t ht; omega
    · simp only [List.mem_singleton] at ht
      rw [ht]
      show s.nextTid < s.nextTid + 1
      omega
  · exact hs.keysNodup
  · exact hs.valsNodup
  · intro p hp
    dsimp only at hp ⊢
    rcases hs.mapWaiting p hp with ⟨t, ht, h1, h2, h3⟩
    exact ⟨t, List.mem_append_left _ ht, h1, h2, h3⟩
  · intro t ht hw
    dsimp only at ht ⊢
    rcases List.mem_append.mp ht with ht | ht
    · exact hs.waitingFresh t ht hw
    · simp only [List.mem_singleton] at ht
      rw [ht] at hw
      exact absurd hw (by simp)
  · intro p hp
    dsimp only at hp ⊢
    rcases hs.resolvedDone p hp with ⟨t, ht, h1, h2⟩
    exact ⟨t, List.mem_append_left _ ht, h1, h2⟩
  · exact hs.resolvedNodup
  · intro q hq
    dsimp only at hq ⊢
    rw [Option.some.injEq] at hq
    right
    exact ⟨⟨s.nextTid, genId ds, reqId, Phase.sentPending⟩,
      List.mem_append_right _ (List.mem_singleton.mpr rfl), hq, Or.inl rfl⟩
  · show ((s.tasks ++ [(⟨s.nextTid, genId ds, reqId, Phase.sentPending⟩ : AskTask)]).map AskTask.reqId ++
      s.notifies.map NotifyTask.reqId).Nodup
    rw [List.map_append]
    exact nodup_insert_middle hs.reqNodup hTasks hNot
  · intro t ht r hr hrid
    dsimp only at ht hr hrid
    rcases List.mem_append.mp ht with ht | ht
    · exact hs.respChar t ht r hr hrid
    · simp only [List.mem_singleton] at ht
      rw [ht] at hrid
      have hrid' : ridOf r = reqId := hrid
      exact absurd (hrid' ▸ List.mem_map_of_mem ridOf hr) hResp

theorem mem_setPhase_fields {tasks : List AskTask} {tid : Nat} {ph : Phase} {t' : AskTask}
    (h : t' ∈ setPhase tasks tid ph) :
    ∃ t0 ∈ tasks, t'.tid = t0.tid ∧ t'.qid = t0.qid ∧ t'.reqId = t0.reqId ∧
      ((t0.tid ≠ tid ∧ t' = t0) ∨ (t0.tid = tid ∧ t' = { t0 with phase := ph })) := by
  rcases mem_setPhase h with ⟨t0, ht0, hc⟩
  rcases hc with ⟨h1, heq⟩ | ⟨h1, heq⟩
  · exact ⟨t0, ht0, by rw [heq], by rw [heq], by rw [heq], Or.inl ⟨h1, heq⟩⟩
  · exact ⟨t0, ht0, by rw [heq], by rw [heq], by rw [heq], Or.inr ⟨h1, heq⟩⟩

theorem nodup_append_singleton {A : List Nat} {x : Nat} (h : A.Nodup) (hx : x ∉ A) :
    (A ++ [x]).Nodup := by
  refine List.Nodup.append h (List.nodup_singleton _) ?_
  intro a ha hb
  simp only [List.mem_singleton] at hb
  exact hx (hb ▸ ha)

theorem sysInv_sendOk {s : SysState} (hs : SysInv s) {t : AskTask}
    (ht : t ∈ s.tasks) (hp : t.phase = Phase.sentPending) : SysInv (doSendOk s t) := by
  have hTidResolved : t.tid ∉ s.resolved.map Prod.fst := by
    intro hm
    rcases List.mem_map.mp hm with ⟨p, hpmem, hpe⟩
    rcases hs.resolvedDone p hpmem with ⟨t2, ht2, htid, a, hph⟩
    have ht2t : t2 = t := tid_inj hs.tidsNodup ht2 ht (by rw [htid, hpe])
    rw [ht2t, hp] at hph
    rcases hph with hph | hph <;> simp at hph
  have hTidVals : t.tid ∉ s.pendingQuestions.map Prod.snd := by
    intro hm
    rcases List.mem_map.mp hm with ⟨p, hpmem, hpe⟩
    rcases hs.mapWaiting p hpmem with ⟨t0, ht0, h1, h2, h3⟩
    have ht0t : t0 = t := tid_inj hs.tidsNodup ht0 ht (by rw [h1, hpe])
    rw [ht0t, hp] at h3
    simp at h3
  refine ⟨?_, ?_, ?_, ?_, ?_, ?_, ?_, ?_, ?_, ?_, ?_⟩
  · show ((setPhase s.tasks t.tid Phase.waiting).map AskTask.tid).Nodup
    rw [setPhase_map_tid]; exact hs.tidsNodup
  · intro t' ht'
    dsimp only [doSendOk] at ht' ⊢
    rcases mem_setPhase_fields ht' with ⟨t0, ht0, htid, _, _, _⟩
    rw [htid]; exact hs.tidsLt t0 ht0
  · show ((setEntry s.pendingQuestions t.qid t.tid).map Prod.fst).Nodup
    exact keysNodup_setEntry hs.keysNodup
  · show ((setEntry s.pendingQuestions t.qid t.tid).map Prod.snd).Nodup
    exact valsNodup_setEntry hs.valsNodup hTidVals
  · intro p hp2
    dsimp only [doSendOk] at hp2 ⊢
    rcases mem_setEntry hp2 with hpe | hpe
    · refine ⟨{ t with phase := Phase.waiting }, mem_setPhase_self Phase.waiting ht, ?_, ?_, rfl⟩
      · rw [hpe]
      · rw [hpe]
    · rcases hs.mapWaiting p hpe with ⟨t0, ht0, h1, h2, h3⟩
      have hne : t0.tid ≠ t.tid := by
        intro he
        have ht0t : t0 = t := tid_inj hs.tidsNodup ht0 ht he
        rw [ht0t, hp] at h3
        simp at h3
      exact ⟨t0, mem_setPhase_of_ne ht0 hne, h1, h2, h3⟩
  · intro t' ht' hw
    dsimp only [doSendOk] at ht' ⊢
    rcases mem_setPhase_fields ht' with ⟨t0, ht0, htid, _, _, hc⟩
    rcases hc with ⟨hne, heq⟩ | ⟨he, heq⟩
    · rw [heq] at hw ⊢
      exact hs.waitingFresh t0 ht0 hw
    · have ht0t : t0 = t := tid_inj hs.tidsNodup ht0 ht he
      rw [htid, ht0t]
      exact hTidResolved
  · intro p hp2
    dsimp only [doSendOk] at hp2 ⊢
    rcases hs.resolvedDone p hp2 with ⟨t2, ht2, htid, a, hph⟩
    have hne : t2.tid ≠ t.tid := by
      intro he
      have ht2t : t2 = t := tid_inj hs.tidsNodup ht2 ht he
      rw [ht2t, hp] at hph
      rcases hph with hph | hph <;> simp at hph
    exact ⟨t2, mem_setPhase_of_ne ht2 hne, htid, a, hph⟩
  · exact hs.resolvedNodup
  · intro q hq
    dsimp only [doSendOk] at hq ⊢
    rcases hs.lastOk q hq with hl | ⟨t3, ht3, hq3, hph3⟩
    · exact Or.inl (lookupKey_setEntry_isSome hl)
    · by_cases he : t3.tid = t.tid
      · have ht3t : t3 = t := tid_inj hs.tidsNodup ht3 ht he
        subst ht3t
        left
        rw [lookupKey_setEntry, hq3]
        simp
      · exact Or.inr ⟨t3, mem_setPhase_of_ne ht3 he, hq3, hph3⟩
  · show ((setPhase s.tasks t.tid Phase.waiting).map AskTask.reqId ++
      s.notifies.map NotifyTask.reqId).Nodup
    rw [setPhase_map_reqId]; exact hs.reqNodup
  · intro t' ht' r hr hrid
    dsimp only [doSendOk] at ht' hr hrid
    rcases mem_setPhase_fields ht' with ⟨t0, ht0, _, _, hreq, hc⟩
    have hrid0 : ridOf r = t0.reqId := by rw [hrid, hreq]
    rcases hc with ⟨hne, heq⟩ | ⟨he, heq⟩
    · rw [heq]
      exact hs.respChar t0 ht0 r hr hrid0
    · have ht0t : t0 = t := tid_inj hs.tidsNodup ht0 ht he
      have hco := hs.respChar t0 ht0 r hr hrid0
      rcases hco with ⟨a, hpha, _⟩ | ⟨m2, hphm, _⟩
      · rw [ht0t, hp] at hpha; simp at hpha
      · rw [ht0t, hp] at hphm; simp at hphm

theorem sysInv_sendFail {s : SysState} (hs : SysInv s) {t : AskTask} (m : String)
    (ht : t ∈ s.tasks) (hp : t.phase = Phase.sentPending) : SysInv (doSendFail s t m) := by
  have hTasksNodup : (s.tasks.map AskTask.reqId).Nodup := (List.nodup_append.mp hs.reqNodup).1
  refine ⟨?_, ?_, ?_, ?_, ?_, ?_, ?_, ?_, ?_, ?_, ?_⟩
  · show ((setPhase s.tasks t.tid Phase.failed).map AskTask.tid).Nodup
    rw [setPhase_map_tid]; exact hs.tidsNodup
  · intro t' ht'
    dsimp only [doSendFail] at ht' ⊢
    rcases mem_setPhase_fields ht' with ⟨t0, ht0, htid, _, _, _⟩
    rw [htid]; exact hs.tidsLt t0 ht0
  · exact hs.keysNodup
  · exact hs.valsNodup
  · intro p hp2
    dsimp only [doSendFail] at hp2 ⊢
    rcases hs.mapWaiting p hp2 with ⟨t0, ht0, h1, h2, h3⟩
    have hne : t0.tid ≠ t.tid := by
      intro he
      have ht0t : t0 = t := tid_inj hs.tidsNodup ht0 ht he
      rw [ht0t, hp] at h3
      simp at h3
    exact ⟨t0, mem_setPhase_of_ne ht0 hne, h1, h2, h3⟩
  · intro t' ht' hw
    dsimp only [doSendFail] at ht' ⊢
    rcases mem_setPhase_fields ht' with ⟨t0, ht0, htid, _, _, hc⟩
    rcases hc with ⟨hne, heq⟩ | ⟨he, heq⟩
    · rw [heq] at hw ⊢
      exact hs.waitingFresh t0 ht0 hw
    · rw [heq] at hw
      simp at hw
  · intro p hp2
    dsimp only [doSendFail] at hp2 ⊢
    rcases hs.resolvedDone p hp2 with ⟨t2, ht2, htid, a, hph⟩
    have hne : t2.tid ≠ t.tid := by
      intro he
      have ht2t : t2 = t := tid_inj hs.tidsNodup ht2 ht he
      rw [ht2t, hp] at hph
      rcases hph with hph | hph <;> simp at hph
    exact ⟨t2, mem_setPhase_of_ne ht2 hne, htid, a, hph⟩
  · exact hs.resolvedNodup
  · intro q hq
    dsimp only [doSendFail] at hq ⊢
    rcases hs.lastOk q hq with hl | ⟨t3, ht3, hq3, hph3⟩
    · exact Or.inl hl
    · by_cases he : t3.tid = t.tid
      · have ht3t : t3 = t := tid_inj hs.tidsNodup ht3 ht he
        right
        refine ⟨{ t3 with phase := Phase.failed }, ?_, hq3, Or.inr rfl⟩
        rw [← he]
        exact mem_setPhase_self Phase.failed ht3
      · exact Or.inr ⟨t3, mem_setPhase_of_ne ht3 he, hq3, hph3⟩
  · show ((setPhase s.tasks t.tid Phase.failed).map AskTask.reqId ++
      s.notifies.map NotifyTask.reqId).Nodup
    rw [setPhase_map_reqId]; exact hs.reqNodup
  · intro t' ht' r hr hrid
    dsimp only [doSendFail] at ht' hr hrid
    rcases mem_setPhase_fields ht' with ⟨t0, ht0, htid, _, hreq, hc⟩
    have hrid0 : ridOf r = t0.reqId := by rw [hrid, hreq]
    rcases List.mem_append.mp hr with hr2 | hr2
    · rcases hc with ⟨hne, heq⟩ | ⟨he, heq⟩
      · rw [heq]
        exact hs.respChar t0 ht0 r hr2 hrid0
      · have ht0t : t0 = t := tid_inj hs.tidsNodup ht0 ht he
        have hco := hs.respChar t0 ht0 r hr2 hrid0
        rcases hco with ⟨a, hpha, _⟩ | ⟨m2, hphm, _⟩
        · rw [ht0t, hp] at hpha; simp at hpha
        · rw [ht0t, hp] at hphm; simp at hphm
    · simp only [List.mem_singleton] at hr2
      subst hr2
      have hre : t.reqId = t0.reqId := hrid0
      have ht0t : t0 = t := reqId_inj hTasksNodup ht0 ht hre.symm
      rcases hc with ⟨hne, heq⟩ | ⟨he, heq⟩
      · exact absurd (congrArg AskTask.tid ht0t) hne
      · rw [heq]
        right
        refine ⟨m, rfl, ?_⟩
        show RpcResponse.rpcError t.reqId (-32000) ("Failed to get response: " ++ m) =
          RpcResponse.rpcError t0.reqId (-32000) ("Failed to get response: " ++ m)
        rw [ht0t]

theorem sysInv_deliver {s : SysState} (hs : SysInv s) (cfg : String) (msg : Message) :
    SysInv (doDeliver cfg s msg) := by
  cases hm : (handleMessage cfg ⟨s.pendingQuestions, s.lastQuestionId⟩ msg).2 with
  | none => rw [doDeliver_none hm]; exact hs
  | some pr =>
    obtain ⟨tok, ans⟩ := pr
    rcases handleMessage_some hm with ⟨q, htext, hchat, hans, hcand, hqne, hlk, hst1⟩
    have hqmem : (q, tok) ∈ s.pendingQuestions := lookupKey_mem hlk
    rcases hs.mapWaiting (q, tok) hqmem with ⟨tW, htW, htWtid0, htWqid0, htWph⟩
    have htWtid : tW.tid = tok := htWtid0
    have htWqid : tW.qid = q := htWqid0
    have hTokFresh : tok ∉ s.resolved.map Prod.fst := htWtid ▸ hs.waitingFresh tW htW htWph
    rw [doDeliver_some hm, hst1]
    refine ⟨?_, ?_, ?_, ?_, ?_, ?_, ?_, ?_, ?_, ?_, ?_⟩
    · show ((setPhase s.tasks tok (Phase.done ans)).map AskTask.tid).Nodup
      rw [setPhase_map_tid]; exact hs.tidsNodup
    · intro t' ht'
      dsimp only at ht' ⊢
      rcases mem_setPhase_fields ht' with ⟨t0, ht0, htid, _, _, _⟩
      rw [htid]; exact hs.tidsLt t0 ht0
    · show ((eraseKey q s.pendingQuestions).map Prod.fst).Nodup
      exact List.Nodup.sublist (List.Sublist.map Prod.fst (eraseKey_sublist q _)) hs.keysNodup
    · show ((eraseKey q s.pendingQuestions).map Prod.snd).Nodup
      exact List.Nodup.sublist (List.Sublist.map Prod.snd (eraseKey_sublist q _)) hs.valsNodup
    · intro p hp2
      dsimp only at hp2 ⊢
      rcases mem_eraseKey_ne hs.keysNodup hp2 with ⟨hpmem, hpne⟩
      rcases hs.mapWaiting p hpmem with ⟨t0, ht0, h1, h2, h3⟩
      have hne : t0.tid ≠ tok := by
        intro he
        have hpq : p = (q, tok) :=
          snd_eq_of_valsNodup hs.valsNodup hpmem hqmem (by rw [← h1, he])
        exact hpne (by rw [hpq])
      exact ⟨t0, mem_setPhase_of_ne ht0 hne, h1, h2, h3⟩
    · intro t' ht' hw
      dsimp only at ht' ⊢
      rcases mem_setPhase_fields ht' with ⟨t0, ht0, htid, _, _, hc⟩
      rcases hc with ⟨hne, heq⟩ | ⟨he, heq⟩
      · rw [heq] at hw ⊢
        rw [List.map_append]
        intro hmem
        rcases List.mem_append.mp hmem with hmem | hmem
        · exact hs.waitingFresh t0 ht0 hw hmem
        · simp only [List.map_cons, List.map_nil, List.mem_singleton] at hmem
          exact hne hmem
      · rw [heq] at hw
        simp at hw
    · intro p hp2
      dsimp only at hp2 ⊢
      rcases List.mem_append.mp hp2 with hp2 | hp2
      · rcases hs.resolvedDone p hp2 with ⟨t2, ht2, htid2, a, hph⟩
        have hne : t2.tid ≠ tok := by
          intro he
          have ht2W : t2 = tW := tid_inj hs.tidsNodup ht2 htW (by rw [he, htWtid])
          rw [ht2W, htWph] at hph
          rcases hph with hph | hph <;> simp at hph
        exact ⟨t2, mem_setPhase_of_ne ht2 hne, htid2, a, hph⟩
      · simp only [List.mem_singleton] at hp2
        subst hp2
        refine ⟨{ tW with phase := Phase.done ans }, ?_, htWtid, ans, Or.inl rfl⟩
        rw [← htWtid]
        exact mem_setPhase_self (Phase.done ans) htW
    · show ((s.resolved ++ [(tok, ans)]).map Prod.fst).Nodup
      rw [List.map_append]
      exact nodup_append_singleton hs.resolvedNodup hTokFresh
    · intro q' hq'
      dsimp only at hq'
      simp at hq'
    · show ((setPhase s.tasks tok (Phase.done ans)).map AskTask.reqId ++
        s.notifies.map NotifyTask.reqId).Nodup
      rw [setPhase_map_reqId]; exact hs.reqNodup
    · intro t' ht' r hr hrid
      dsimp only at ht' hr hrid
      rcases mem_setPhase_fields ht' with ⟨t0, ht0, _, _, hreq, hc⟩
      have hrid0 : ridOf r = t0.reqId := by rw [hrid, hreq]
      rcases hc with ⟨hne, heq⟩ | ⟨he, heq⟩
      · rw [heq]
        exact hs.respChar t0 ht0 r hr hrid0
      · have ht0W : t0 = tW := tid_inj hs.tidsNodup ht0 htW (by rw [he, htWtid])
        have hco := hs.respChar t0 ht0 r hr hrid0
        rcases hco with ⟨a, hpha, _⟩ | ⟨m2, hphm, _⟩
        · rw [ht0W, htWph] at hpha; simp at hpha
        · rw [ht0W, htWph] at hphm; simp at hphm

theorem sysInv_askRespond {s : SysState} (hs : SysInv s) {t : AskTask} {a : String}
    (ht : t ∈ s.tasks) (hp : t.phase = Phase.done a) : SysInv (doAskRespond s t a) := by
  have hTasksNodup : (s.tasks.map AskTask.reqId).Nodup := (List.nodup_append.mp hs.reqNodup).1
  refine ⟨?_, ?_, ?_, ?_, ?_, ?_, ?_, ?_, ?_, ?_, ?_⟩
  · show ((setPhase s.tasks t.tid (Phase.responded a)).map AskTask.tid).Nodup
    rw [setPhase_map_tid]; exact hs.tidsNodup
  · intro t' ht'
    dsimp only [doAskRespond] at ht' ⊢
    rcases mem_setPhase_fields ht' with ⟨t0, ht0, htid, _, _, _⟩
    rw [htid]; exact hs.tidsLt t0 ht0
  · exact hs.keysNodup
  · exact hs.valsNodup
  · intro p hp2
    dsimp only [doAskRespond] at hp2 ⊢
    rcases hs.mapWaiting p hp2 with ⟨t0, ht0, h1, h2, h3⟩
    have hne : t0.tid ≠ t.tid := by
      intro he
      have ht0t : t0 = t := tid_inj hs.tidsNodup ht0 ht he
      rw [ht0t, hp] at h3
      simp at h3
    exact ⟨t0, mem_setPhase_of_ne ht0 hne, h1, h2, h3⟩
  · intro t' ht' hw
    dsimp only [doAskRespond] at ht' ⊢
    rcases mem_setPhase_fields ht' with ⟨t0, ht0, htid, _, _, hc⟩
    rcases hc with ⟨hne, heq⟩ | ⟨he, heq⟩
    · rw [heq] at hw ⊢
      exact hs.waitingFresh t0 ht0 hw
    · rw [heq] at hw
      simp at hw
  · intro p hp2
    dsimp only [doAskRespond] at hp2 ⊢
    rcases hs.resolvedDone p hp2 with ⟨t2, ht2, htid2, a2, hph⟩
    by_cases he : t2.tid = t.tid
    · have ht2t : t2 = t := tid_inj hs.tidsNodup ht2 ht he
      refine ⟨{ t with phase := Phase.responded a }, ?_, ?_, a, Or.inr rfl⟩
      · exact mem_setPhase_self (Phase.responded a) ht
      · show t.tid = p.1
        rw [← he, htid2]
    · exact ⟨t2, mem_setPhase_of_ne ht2 he, htid2, a2, hph⟩
  · exact hs.resolvedNodup
  · intro q hq
    dsimp only [doAskRespond] at hq ⊢
    rcases hs.lastOk q hq with hl | ⟨t3, ht3, hq3, hph3⟩
    · exact Or.inl hl
    · have hne : t3.tid ≠ t.tid := by
        intro he
        have ht3t : t3 = t := tid_inj hs.tidsNodup ht3 ht he
        rw [ht3t, hp] at hph3
        rcases hph3 with hph3 | hph3 <;> simp at hph3
      exact Or.inr ⟨t3, mem_setPhase_of_ne ht3 hne, hq3, hph3⟩
  · show ((setPhase s.tasks t.tid (Phase.responded a)).map AskTask.reqId ++
      s.notifies.map NotifyTask.reqId).Nodup
    rw [setPhase_map_reqId]; exact hs.reqNodup
  · intro t' ht' r hr hrid
    dsimp only [doAskRespond] at ht' hr hrid
    rcases mem_setPhase_fields ht' with ⟨t0, ht0, htid, _, hreq, hc⟩
    have hrid0 : ridOf r = t0.reqId := by rw [hrid, hreq]
    rcases List.mem_append.mp hr with hr2 | hr2
    · rcases hc with ⟨hne, heq⟩ | ⟨he, heq⟩
      · rw [heq]
        exact hs.respChar t0 ht0 r hr2 hrid0
      · have ht0t : t0 = t := tid_inj hs.tidsNodup ht0 ht he
        have hco := hs.respChar t0 ht0 r hr2 hrid0
        rcases hco with ⟨a2, hpha, _⟩ | ⟨m2, hphm, _⟩
        · rw [ht0t, hp] at hpha; simp at hpha
        · rw [ht0t, hp] at hphm; simp at hphm
    · simp only [List.mem_singleton] at hr2
      subst hr2
      have hre : t.reqId = t0.reqId := hrid0
      have ht0t : t0 = t := reqId_inj hTasksNodup ht0 ht hre.symm
      rcases hc with ⟨hne, heq⟩ | ⟨he, heq⟩
      · exact absurd (congrArg AskTask.tid ht0t) hne
      · rw [heq]
        left
        refine ⟨a, rfl, ?_⟩
        show RpcResponse.callResult t.reqId a = RpcResponse.callResult t0.reqId a
        rw [ht0t]

theorem sysInv_notifyStart {s : SysState} (hs : SysInv s) (reqId : Nat)
    (h : reqId ∉ usedReqIds s) : SysInv (doNotifyStart s reqId) := by
  have hUsed : reqId ∉ s.tasks.map AskTask.reqId ++ s.notifies.map NotifyTask.reqId := by
    intro hm
    rcases List.mem_append.mp hm with hm | hm
    · exact h (List.mem_append_left _ (List.mem_append_left _ hm))
    · exact h (List.mem_append_left _ (List.mem_append_right _ hm))
  refine ⟨hs.tidsNodup, hs.tidsLt, hs.keysNodup, hs.valsNodup, hs.mapWaiting,
    hs.waitingFresh, hs.resolvedDone, hs.resolvedNodup, hs.lastOk, ?_, hs.respChar⟩
  show (s.tasks.map AskTask.reqId ++
    ((s.notifies ++ [(⟨reqId, NPhase.nsending⟩ : NotifyTask)]).map NotifyTask.reqId)).Nodup
  rw [List.map_append, ← List.append_assoc]
  exact nodup_append_singleton hs.reqNodup hUsed

theorem sysInv_notifyOk {s : SysState} (hs : SysInv s) {n : NotifyTask}
    (hn : n ∈ s.notifies) : SysInv (doNotifyOk s n) := by
  have hdisj :=
    (List.nodup_append.mp hs.reqNodup).2.2
  refine ⟨hs.tidsNodup, hs.tidsLt, hs.keysNodup, hs.valsNodup, hs.mapWaiting,
    hs.waitingFresh, hs.resolvedDone, hs.resolvedNodup, hs.lastOk, ?_, ?_⟩
  · show (s.tasks.map AskTask.reqId ++
      (setNPhase s.notifies n.reqId NPhase.ndone).map NotifyTask.reqId).Nodup
    rw [setNPhase_map_reqId]; exact hs.reqNodup
  · intro t ht r hr hrid
    dsimp only [doNotifyOk] at hr
    rcases List.mem_append.mp hr with hr2 | hr2
    · exact hs.respChar t ht r hr2 hrid
    · simp only [List.mem_singleton] at hr2
      subst hr2
      have : n.reqId = t.reqId := hrid
      exact absurd (List.mem_map_of_mem NotifyTask.reqId hn)
        (fun hmem => hdisj (this ▸ List.mem_map_of_mem AskTask.reqId ht) hmem)

theorem sysInv_notifyFail {s : SysState} (hs : SysInv s) {n : NotifyTask} (m : String)
    (hn : n ∈ s.notifies) : SysInv (doNotifyFail s n m) := by
  have hdisj :=
    (List.nodup_append.mp hs.reqNodup).2.2
  refine ⟨hs.tidsNodup, hs.tidsLt, hs.keysNodup, hs.valsNodup, hs.mapWaiting,
    hs.waitingFresh, hs.resolvedDone, hs.resolvedNodup, hs.lastOk, ?_, ?_⟩
  · show (s.tasks.map AskTask.reqId ++
      (setNPhase s.notifies n.reqId NPhase.ndone).map NotifyTask.reqId).Nodup
    rw [setNPhase_map_reqId]; exact hs.reqNodup
  · intro t ht r hr hrid
    dsimp only [doNotifyFail] at hr
    rcases List.mem_append.mp hr with hr2 | hr2
    · exact hs.respChar t ht r hr2 hrid
    · simp only [List.mem_singleton] at hr2
      subst hr2
      have : n.reqId = t.reqId := hrid
      exact absurd (List.mem_map_of_mem NotifyTask.reqId hn)
        (fun hmem => hdisj (this ▸ List.mem_map_of_mem AskTask.reqId ht) hmem)

theorem sysInv_toolsList {s : SysState} (hs : SysInv s) (reqId : Nat)
    (h : reqId ∉ usedReqIds s) : SysInv (doToolsList s reqId) := by
  refine ⟨hs.tidsNodup, hs.tidsLt, hs.keysNodup, hs.valsNodup, hs.mapWaiting,
    hs.waitingFresh, hs.resolvedDone, hs.resolvedNodup, hs.lastOk, hs.reqNodup, ?_⟩
  intro t ht r hr hrid
  dsimp only [doToolsList] at hr
  rcases List.mem_append.mp hr with hr2 | hr2
  · exact hs.respChar t ht r hr2 hrid
  · simp only [List.mem_singleton] at hr2
    subst hr2
    have hre : reqId = t.reqId := hrid
    exact absurd (hre ▸ List.mem_map_of_mem AskTask.reqId ht)
      (fun hmem => h (List.mem_append_left _ (List.mem_append_left _ (hre ▸ hmem))))

theorem sysInv_start : SysInv startState := by
  refine ⟨?_, ?_, ?_, ?_, ?_, ?_, ?_, ?_, ?_, ?_, ?_⟩ <;> simp [startState]

theorem sysInv_step {cfg : String} {s s' : SysState} (hs : SysInv s) (h : Step cfg s s') :
    SysInv s' := by
  cases h with
  | askStart reqId ds hf => exact sysInv_askStart hs reqId ds hf
  | sendOk t ht hp => exact sysInv_sendOk hs ht hp
  | sendFail t m ht hp => exact sysInv_sendFail hs m ht hp
  | deliver msg => exact sysInv_deliver hs cfg msg
  | askRespond t a ht hp => exact sysInv_askRespond hs ht hp
  | notifyStart reqId hf => exact sysInv_notifyStart hs reqId hf
  | notifyOk n hn hp => exact sysInv_notifyOk hs hn
  | notifyFail n m hn hp => exact sysInv_notifyFail hs m hn
  | listTools reqId hf => exact sysInv_toolsList hs reqId hf

theorem reachable_sysInv {cfg : String} {s : SysState} (h : Reachable cfg s) : SysInv s := by
  induction h with
  | start => exact sysInv_start
  | step hr hst ih => exact sysInv_step ih hst

/-! ## Helper lemmas about the stream framing -/

theorem splitNl_ne_nil (l : List Char) : splitNl l ≠ [] := by
  induction l with
  | nil => simp [splitNl]
  | cons c cs ih =>
    by_cases h : c = '\n'
    · simp [splitNl, h]
    · simp only [splitNl, if_neg h]
      cases hs : splitNl cs with
      | nil => simp
      | cons l ls => simp

theorem splitNl_cons_nl (cs : List Char) : splitNl ('\n' :: cs) = [] :: splitNl cs := by
  simp [splitNl]

theorem splitNl_cons_ne {c : Char} (cs : List Char) (h : c ≠ '\n') :
    splitNl (c :: cs) = mergeHead [c] (splitNl cs) := by
  simp only [splitNl, if_neg h]
  cases hs : splitNl cs with
  | nil => exact absurd hs (splitNl_ne_nil cs)
  | cons l ls => simp [mergeHead]

theorem mergeHead_mergeHead (p q : List Char) (l : List (List Char)) :
    mergeHead p (mergeHead q l) = mergeHead (p ++ q) l := by
  cases l <;> simp [mergeHead, List.append_assoc]

theorem mergeHead_nil_of_ne_nil {l : List (List Char)} (h : l ≠ []) : mergeHead [] l = l := by
  cases l with
  | nil => exact absurd rfl h
  | cons x xs => simp [mergeHead]

theorem getLastD_eq_of_ne_nil {α : Type} {Y : List α} (h : Y ≠ []) (d d' : α) :
    Y.getLastD d = Y.getLastD d' := by
  cases Y with
  | nil => exact absurd rfl h
  | cons y ys => rw [List.getLastD_cons, List.getLastD_cons]

theorem getLastD_append_right {α : Type} (X : List α) {Y : List α} (d : α) (h : Y ≠ []) :
    (X ++ Y).getLastD d = Y.getLastD d := by
  induction X generalizing d with
  | nil => rfl
  | cons a as ih =>
    rw [List.cons_append, List.getLastD_cons]
    cases as with
    | nil =>
      rw [List.nil_append]
      exact getLastD_eq_of_ne_nil h a d
    | cons b bs =>
      rw [ih a]
      exact getLastD_eq_of_ne_nil h a d

theorem splitNl_append (a b : List Char) :
    splitNl (a ++ b) =
      (splitNl a).dropLast ++ mergeHead ((splitNl a).getLastD []) (splitNl b) := by
  induction a with
  | nil =>
    rw [List.nil_append]
    show splitNl b = ([[]] : List (List Char)).dropLast ++ mergeHead ([[]].getLastD []) (splitNl b)
    rw [show ([[]] : List (List Char)).dropLast = [] from rfl,
      show ([[]] : List (List Char)).getLastD [] = [] from rfl, List.nil_append,
      mergeHead_nil_of_ne_nil (splitNl_ne_nil b)]
  | cons c as ih =>
    by_cases h : c = '\n'
    · subst h
      rw [List.cons_append, splitNl_cons_nl, splitNl_cons_nl, ih]
      cases hs : splitNl as with
      | nil => exact absurd hs (splitNl_ne_nil as)
      | cons x xs => rfl
    · rw [List.cons_append, splitNl_cons_ne _ h, splitNl_cons_ne _ h, ih]
      cases hs : splitNl as with
      | nil => exact absurd hs (splitNl_ne_nil as)
      | cons x xs =>
        cases xs with
        | nil =>
          show mergeHead [c] (mergeHead x (splitNl b)) =
            (mergeHead [c] [x]).dropLast ++
              mergeHead ((mergeHead [c] [x]).getLastD []) (splitNl b)
          rw [mergeHead_mergeHead]
          rfl
        | cons y ys => rfl

theorem splitNl_of_not_mem {l : List Char} (h : '\n' ∉ l) : splitNl l = [l] := by
  induction l with
  | nil => rfl
  | cons c cs ih =>
    have hc : c ≠ '\n' := fun he => h (he ▸ List.mem_cons_self c cs)
    rw [splitNl_cons_ne _ hc, ih (fun hm => h (List.mem_cons_of_mem _ hm))]
    rfl

theorem nl_not_mem_getLastD (l : List Char) : '\n' ∉ (splitNl l).getLastD [] := by
  induction l with
  | nil => simp [splitNl]
  | cons c cs ih =>
    by_cases h : c = '\n'
    · subst h
      rw [splitNl_cons_nl, List.getLastD_cons]
      cases hs : splitNl cs with
      | nil => exact absurd hs (splitNl_ne_nil cs)
      | cons x xs =>
        rw [hs] at ih
        cases xs with
        | nil => exact ih
        | cons y ys => exact ih
    · rw [splitNl_cons_ne _ h]
      cases hs : splitNl cs with
      | nil => exact absurd hs (splitNl_ne_nil cs)
      | cons x xs =>
        rw [hs] at ih
        cases xs with
        | nil =>
          show '\n' ∉ ([([c] ++ x)].getLastD [])
          rw [show ([([c] ++ x)].getLastD []) = [c] ++ x from rfl]
          intro hm
          rcases List.mem_append.mp hm with hm | hm
          · simp at hm
            exact h hm.symm
          · exact ih hm
        | cons y ys =>
          show '\n' ∉ ((([c] ++ x) :: y :: ys).getLastD [])
          rw [List.getLastD_cons, List.getLastD_cons]
          rw [List.getLastD_cons, List.getLastD_cons] at ih
          exact ih

theorem processChunk_eq (buf chunk : List Char) :
    processChunk buf chunk =
      ((splitNl (buf ++ chunk)).dropLast, (splitNl (buf ++ chunk)).getLastD []) := rfl

theorem feedFrom_spec (chunks : List (List Char)) :
    ∀ buf : List Char, '\n' ∉ buf →
      feedFrom buf chunks =
        ((splitNl (buf ++ chunks.flatten)).dropLast,
         (splitNl (buf ++ chunks.flatten)).getLastD []) := by
  induction chunks with
  | nil =>
    intro buf hbuf
    rw [feedFrom, List.flatten_nil, List.append_nil, splitNl_of_not_mem hbuf]
    rfl
  | cons c cs ih =>
    intro buf hbuf
    have hb1 : '\n' ∉ (splitNl (buf ++ c)).getLastD [] := nl_not_mem_getLastD (buf ++ c)
    have hkey : splitNl (buf ++ (c :: cs).flatten) =
        (splitNl (buf ++ c)).dropLast ++
          splitNl ((splitNl (buf ++ c)).getLastD [] ++ cs.flatten) := by
      rw [List.flatten_cons, ← List.append_assoc, splitNl_append (buf ++ c) cs.flatten]
      rw [splitNl_append ((splitNl (buf ++ c)).getLastD []) cs.flatten,
        splitNl_of_not_mem hb1]
      rfl
    rw [feedFrom]
    rw [show processChunk buf c =
      ((splitNl (buf ++ c)).dropLast, (splitNl (buf ++ c)).getLastD []) from rfl]
    dsimp only
    rw [ih ((splitNl (buf ++ c)).getLastD []) hb1, hkey]
    have hne : splitNl ((splitNl (buf ++ c)).getLastD [] ++ cs.flatten) ≠ [] :=
      splitNl_ne_nil _
    rw [List.dropLast_append_of_ne_nil _ hne, getLastD_append_right _ _ hne]

/-! ## Helper lemmas about the tag format -/

theorem isTagChar_digitChar36 : ∀ d : Fin 36, isTagChar (digitChar36 d) = true := by decide

theorem isTagChar_nl : isTagChar '\n' = false := by decide

theorem takeWhile_tag_append (rest : List Char) {l : List Char}
    (hall : ∀ c ∈ l, isTagChar c = true) :
    (l ++ '\n' :: rest).takeWhile isTagChar = l ∧
    (l ++ '\n' :: rest).dropWhile isTagChar = '\n' :: rest := by
  induction l with
  | nil =>
    constructor
    · rw [List.nil_append, List.takeWhile_cons, isTagChar_nl]
      simp
    · rw [List.nil_append, List.dropWhile_cons, isTagChar_nl]
      simp
  | cons a as ih =>
    have ha : isTagChar a = true := hall a (List.mem_cons_self a as)
    have h2 := ih (fun c hc => hall c (List.mem_cons_of_mem _ hc))
    constructor
    · rw [List.cons_append, List.takeWhile_cons, ha]
      simp [h2.1]
    · rw [List.cons_append, List.dropWhile_cons, ha]
      simp [h2.2]

theorem matchTagAt_tag {qid : List Char} (rest : List Char) (hne : qid ≠ [])
    (hall : ∀ c ∈ qid, isTagChar c = true) :
    matchTagAt ('#' :: (qid ++ '\n' :: rest)) = some (String.mk qid) := by
  have h := takeWhile_tag_append rest hall
  unfold matchTagAt
  dsimp only
  rw [if_pos rfl, h.1, h.2]
  cases qid with
  | nil => exact absurd rfl hne
  | cons a as => simp

theorem findTag_tagged (qid question : String) (h : isTagToken qid = true) :
    findTag (taggedText qid question).data = some qid := by
  have hne : qid.data ≠ [] := by
    unfold isTagToken at h
    simp only [Bool.and_eq_true, decide_eq_true_eq] at h
    exact h.1
  have hall : ∀ c ∈ qid.data, isTagChar c = true := by
    unfold isTagToken at h
    simp only [Bool.and_eq_true, decide_eq_true_eq, List.all_eq_true] at h
    exact h.2
  have hdata : (taggedText qid question).data = '#' :: (qid.data ++ '\n' :: question.data) := by
    unfold taggedText
    rw [String.data_append, String.data_append, String.data_append]
    rw [show ("#" : String).data = ['#'] from rfl, show ("\n" : String).data = ['\n'] from rfl]
    simp [List.append_assoc]
  rw [hdata]
  have hm := matchTagAt_tag question.data hne hall
  unfold findTag
  rw [hm]

theorem genId_data {ds : List (Fin 36)} (hne : ds ≠ []) :
    (genId ds).data = (ds.map digitChar36).drop 5 := by
  cases ds with
  | nil => exact absurd rfl hne
  | cons d ds' => rfl

theorem genId_isTagToken {ds : List (Fin 36)} (h : 5 < ds.length) :
    isTagToken (genId ds) = true := by
  have hne : ds ≠ [] := by
    intro he
    rw [he] at h
    simp at h
  unfold isTagToken
  rw [genId_data hne]
  have hlen : ((ds.map digitChar36).drop 5).length = ds.length - 5 := by
    rw [List.length_drop, List.length_map]
  have hne2 : (ds.map digitChar36).drop 5 ≠ [] := by
    intro he
    rw [← List.length_eq_zero] at he
    omega
  simp only [Bool.and_eq_true, decide_eq_true_eq, List.all_eq_true]
  refine ⟨hne2, ?_⟩
  intro c hc
  have hc2 : c ∈ ds.map digitChar36 := List.mem_of_mem_drop hc
  rcases List.mem_map.mp hc2 with ⟨d, _, rfl⟩
  exact isTagChar_digitChar36 d

theorem handleFrames_append (parse : List Char → Option Request) (run : ToolRun)
    (pre post : List (List Char)) :
    handleFrames parse run (pre ++ post) =
      handleFrames parse run pre ++ handleFrames parse run post := by
  induction pre with
  | nil => rfl
  | cons f fs ih =>
    rw [List.cons_append]
    show (match parse f with
      | none => handleFrames parse run (fs ++ post)
      | some req => handleRequestModel run req :: handleFrames parse run (fs ++ post)) =
      (match parse f with
      | none => handleFrames parse run fs
      | some req => handleRequestModel run req :: handleFrames parse run fs) ++
        handleFrames parse run post
    cases parse f with
    | none => exact ih
    | some req =>
      dsimp only
      rw [ih, List.cons_append]

/-! ## Further helper lemmas for the claims -/

theorem handleMessage_resolves {cfg t q : String} {st : BotState} {msg : Message} {tok : Nat}
    (hchat : msg.chatId = cfg) (htext : msg.text = some t) (htne : t ≠ "")
    (hcand : candidateOf st msg = some q) (hqne : q ≠ "")
    (hlk : lookupKey q st.pendingQuestions = some tok) :
    handleMessage cfg st msg = (⟨eraseKey q st.pendingQuestions, none⟩, some (tok, t)) := by
  unfold handleMessage
  rw [htext]
  dsimp only
  rw [if_pos ⟨hchat, htne⟩, hcand]
  dsimp only
  rw [if_neg hqne]
  unfold resolveCore
  rw [hlk]

theorem isTagToken_ne_empty {s : String} (h : isTagToken s = true) : s ≠ "" := by
  intro he
  subst he
  simp [isTagToken] at h

theorem foldr_max_le {l : List Nat} {x : Nat} (h : x ∈ l) : x ≤ l.foldr Nat.max 0 := by
  induction l with
  | nil => simp at h
  | cons a as ih =>
    rcases List.mem_cons.mp h with h | h
    · rw [h, List.foldr_cons]; exact Nat.le_max_left _ _
    · rw [List.foldr_cons]; exact le_trans (ih h) (Nat.le_max_right _ _)

theorem freshReqId_not_mem (s : SysState) : freshReqId s ∉ usedReqIds s := by
  intro h
  have h2 := foldr_max_le h
  unfold freshReqId at h2
  omega

/-! ## The claims -/

/-- Claim C1, counterexample: at the registry state with pending entries for
"aa" and "bb" and last question "bb", resolving the non-last identity "aa"
finds a match, yet the last-question slot does not keep "bb" — the code
nulls it unconditionally, contrary to the claim that a resolve of a
non-last identity leaves the slot unchanged. -/
theorem c1_counterexample :
    (resolveCore ⟨[("aa", 0), ("bb", 1)], some "bb"⟩ "aa" "x").2.1 = true ∧
    (resolveCore ⟨[("aa", 0), ("bb", 1)], some "bb"⟩ "aa" "x").1.lastQuestionId ≠ some "bb" := by
  decide

/-- Claim C1 (amended): for every registry state and resolve(identity,
answer) call, if the identity is present its continuation is invoked with
the answer, the entry is removed (its lookup afterwards fails when the map
keys are distinct), the call reports true, and the last-question slot is
cleared unconditionally — even when it holds a different identity; if the
identity is absent the call is a no-op returning false. -/
theorem c1_theorem : ∀ (st : BotState) (qid answer : String),
    (∀ tok, lookupKey qid st.pendingQuestions = some tok →
        resolveCore st qid answer =
          (⟨eraseKey qid st.pendingQuestions, none⟩, true, some (tok, answer)))
    ∧ ((st.pendingQuestions.map Prod.fst).Nodup →
        ∀ tok, lookupKey qid st.pendingQuestions = some tok →
          lookupKey qid (resolveCore st qid answer).1.pendingQuestions = none)
    ∧ (lookupKey qid st.pendingQuestions = none →
        resolveCore st qid answer = (st, false, none)) := by
  intro st qid answer
  refine ⟨?_, ?_, ?_⟩
  · intro tok h
    unfold resolveCore
    rw [h]
  · intro hnd tok h
    unfold resolveCore
    rw [h]
    exact lookupKey_eraseKey_self hnd
  · intro h
    unfold resolveCore
    rw [h]

/-- Claim C1, witness: the amended theorem evaluated at concrete registry
states, on a hit and on a miss. -/
theorem c1_witness :
    resolveCore ⟨[("aa", 0), ("bb", 1)], some "bb"⟩ "aa" "x" =
      (⟨eraseKey "aa" [("aa", 0), ("bb", 1)], none⟩, true, some (0, "x")) ∧
    lookupKey "aa"
      (resolveCore ⟨[("aa", 0), ("bb", 1)], some "bb"⟩ "aa" "x").1.pendingQuestions = none ∧
    resolveCore ⟨[("cc", 2)], none⟩ "aa" "y" = (⟨[("cc", 2)], none⟩, false, none) :=
  ⟨(c1_theorem ⟨[("aa", 0), ("bb", 1)], some "bb"⟩ "aa" "x").1 0 (by decide),
   (c1_theorem ⟨[("aa", 0), ("bb", 1)], some "bb"⟩ "aa" "x").2.1 (by decide) 0 (by decide),
   (c1_theorem ⟨[("cc", 2)], none⟩ "aa" "y").2.2 (by decide)⟩

/-- Claim C2, counterexample: the claim says the message resolves the
candidate iff the candidate is currently in the mapping. In the reachable
state where identity generation produced the empty token (Math.random() =
0.5, base-36 digits [18]), the empty identity is in the mapping and is the
last-question candidate of a plain reply, yet the handler resolves nothing:
the JS truthiness test drops the empty-string candidate. -/
theorem c2_counterexample :
    lookupKey "" ([("", 7)] : List (String × Nat)) = some 7 ∧
    candidateOf ⟨[("", 7)], some ""⟩ ⟨"42", some "hi", none⟩ = some "" ∧
    handleMessage "42" ⟨[("", 7)], some ""⟩ ⟨"42", some "hi", none⟩ =
      (⟨[("", 7)], some ""⟩, none) ∧
    Reachable "42"
      (doSendOk (doAskStart startState 9 [(18 : Fin 36)]) ⟨0, "", 9, Phase.sentPending⟩) ∧
    (doSendOk (doAskStart startState 9 [(18 : Fin 36)])
      ⟨0, "", 9, Phase.sentPending⟩).pendingQuestions = [("", 0)] ∧
    (doSendOk (doAskStart startState 9 [(18 : Fin 36)])
      ⟨0, "", 9, Phase.sentPending⟩).lastQuestionId = some "" := by
  refine ⟨by decide, by decide, by decide, ?_, by decide, by decide⟩
  exact Reachable.step
    (Reachable.step Reachable.start (Step.askStart 9 [(18 : Fin 36)] (by decide)))
    (Step.sendOk ⟨0, "", 9, Phase.sentPending⟩ (by decide) rfl)

/-- Claim C2 (amended): the Reply Matcher proceeds in order, first match
wins: a message whose origin chat differs from the configured recipient or
that carries no (nonempty) text is rejected with no side effect; if an
identity parses from the quoted text it is the candidate regardless of
whether it is outstanding (no fallback); otherwise the last-question
identity is the candidate; the message resolves the candidate iff the
candidate is non-empty and currently in the mapping (a miss is silently
dropped, leaving the state unchanged). With two outstanding questions A
(older) and B (newer, last), a plain non-quoted reply resolves B, and a
reply quoting A's tagged text resolves A. -/
theorem c2_theorem :
    (∀ (cfg : String) (st : BotState) (msg : Message),
        (msg.chatId ≠ cfg ∨ msg.text = none ∨ msg.text = some "") →
        handleMessage cfg st msg = (st, none))
    ∧ (∀ (st : BotState) (msg : Message) (q : String),
        replyTag msg = some q → candidateOf st msg = some q)
    ∧ (∀ (st : BotState) (msg : Message),
        replyTag msg = none → candidateOf st msg = st.lastQuestionId)
    ∧ (∀ (cfg t : String) (st : BotState) (msg : Message),
        msg.chatId = cfg → msg.text = some t → t ≠ "" →
        ((∃ q tok, candidateOf st msg = some q ∧ q ≠ "" ∧
            lookupKey q st.pendingQuestions = some tok ∧
            handleMessage cfg st msg =
              (⟨eraseKey q st.pendingQuestions, none⟩, some (tok, t)))
          ∨ (handleMessage cfg st msg = (st, none) ∧
              ∀ q, candidateOf st msg = some q → q ≠ "" →
                lookupKey q st.pendingQuestions = none)))
    ∧ (∀ (cfg ans qA : String) (st : BotState) (A B : String) (tokA tokB : Nat),
        isTagToken A = true → isTagToken B = true →
        lookupKey A st.pendingQuestions = some tokA →
        lookupKey B st.pendingQuestions = some tokB →
        st.lastQuestionId = some B → ans ≠ "" →
        (handleMessage cfg st ⟨cfg, some ans, none⟩).2 = some (tokB, ans) ∧
        (handleMessage cfg st ⟨cfg, some ans, some (taggedText A qA)⟩).2 = some (tokA, ans)) := by
  refine ⟨?_, ?_, ?_, ?_, ?_⟩
  · intro cfg st msg h
    unfold handleMessage
    cases htext : msg.text with
    | none => rfl
    | some t =>
      dsimp only
      have hcond : ¬ (msg.chatId = cfg ∧ t ≠ "") := by
        intro hc
        rcases h with h | h | h
        · exact h hc.1
        · rw [htext] at h; exact Option.noConfusion h
        · rw [htext, Option.some.injEq] at h; exact hc.2 h
      rw [if_neg hcond]
  · intro st msg q h
    unfold candidateOf
    rw [h]
  · intro st msg h
    unfold candidateOf
    rw [h]
  · intro cfg t st msg hchat htext htne
    cases hcand : candidateOf st msg with
    | none =>
      right
      constructor
      · unfold handleMessage
        rw [htext]
        dsimp only
        rw [if_pos ⟨hchat, htne⟩, hcand]
      · intro q hq
        exact Option.noConfusion hq
    | some q =>
      by_cases hqne : q = ""
      · right
        refine ⟨?_, ?_⟩
        · unfold handleMessage
          rw [htext]
          dsimp only
          rw [if_pos ⟨hchat, htne⟩, hcand]
          dsimp only
          rw [if_pos hqne]
        · intro q2 hq2 hq2ne
          have hqq : q = q2 := Option.some.inj hq2
          exact absurd (hqq ▸ hqne) hq2ne
      · cases hlk : lookupKey q st.pendingQuestions with
        | some tok =>
          left
          exact ⟨q, tok, rfl, hqne, hlk,
            handleMessage_resolves hchat htext htne hcand hqne hlk⟩
        | none =>
          right
          refine ⟨?_, ?_⟩
          · unfold handleMessage
            rw [htext]
            dsimp only
            rw [if_pos ⟨hchat, htne⟩, hcand]
            dsimp only
            rw [if_neg hqne]
            unfold resolveCore
            rw [hlk]
          · intro q2 hq2 hq2ne
            have hqq : q = q2 := Option.some.inj hq2
            rw [← hqq]
            exact hlk
  · intro cfg ans qA st A B tokA tokB hA hB hlkA hlkB hlast hans
    constructor
    · have hcand : candidateOf st ⟨cfg, some ans, none⟩ = some B := by
        unfold candidateOf replyTag
        dsimp only
        rw [hlast]
      rw [handleMessage_resolves rfl rfl hans hcand (isTagToken_ne_empty hB) hlkB]
    · have hcand : candidateOf st ⟨cfg, some ans, some (taggedText A qA)⟩ = some A := by
        unfold candidateOf replyTag
        dsimp only
        rw [findTag_tagged A qA hA]
      rw [handleMessage_resolves rfl rfl hans hcand (isTagToken_ne_empty hA) hlkA]

/-- Claim C2, witness: the amended theorem evaluated at a rejected message,
a resolving message, and the concrete two-question scenario. -/
theorem c2_witness :
    handleMessage "42" ⟨[("ab", 3)], some "ab"⟩ ⟨"99", some "hi", none⟩ =
      (⟨[("ab", 3)], some "ab"⟩, none) ∧
    (handleMessage "42" ⟨[("aa", 1), ("bb", 2)], some "bb"⟩ ⟨"42", some "blue", none⟩).2 =
      some (2, "blue") ∧
    (handleMessage "42" ⟨[("aa", 1), ("bb", 2)], some "bb"⟩
      ⟨"42", some "blue", some (taggedText "aa" "Color?")⟩).2 = some (1, "blue") := by
  refine ⟨?_, ?_, ?_⟩
  · exact c2_theorem.1 "42" ⟨[("ab", 3)], some "ab"⟩ ⟨"99", some "hi", none⟩
      (Or.inl (by decide))
  · exact (c2_theorem.2.2.2.2 "42" "blue" "Color?" ⟨[("aa", 1), ("bb", 2)], some "bb"⟩
      "aa" "bb" 1 2 (by decide) (by decide) (by decide) (by decide) rfl (by decide)).1
  · exact (c2_theorem.2.2.2.2 "42" "blue" "Color?" ⟨[("aa", 1), ("bb", 2)], some "bb"⟩
      "aa" "bb" 1 2 (by decide) (by decide) (by decide) (by decide) rfl (by decide)).2

/-- Claim C3, counterexample: the claim says every unanswered identity held
in the last-question slot has an entry in the mapping, in every reachable
state including those produced by failed sends. In the reachable state
after an ask whose transport send failed, the slot still holds the failed
question's identity "a" (set before the send at line 139), no continuation
was ever invoked, yet the mapping has no entry for it. -/
theorem c3_counterexample :
    Reachable "42"
      (doSendFail (doAskStart startState 5 dsA) ⟨0, "a", 5, Phase.sentPending⟩ "network error") ∧
    (doSendFail (doAskStart startState 5 dsA)
      ⟨0, "a", 5, Phase.sentPending⟩ "network error").lastQuestionId = some "a" ∧
    lookupKey "a" (doSendFail (doAskStart startState 5 dsA)
      ⟨0, "a", 5, Phase.sentPending⟩ "network error").pendingQuestions = none ∧
    (doSendFail (doAskStart startState 5 dsA)
      ⟨0, "a", 5, Phase.sentPending⟩ "network error").resolved = [] ∧
    (doSendFail (doAskStart startState 5 dsA)
      ⟨0, "a", 5, Phase.sentPending⟩ "network error").tasks = [⟨0, "a", 5, Phase.failed⟩] := by
  refine ⟨?_, by decide, by decide, by decide, by decide⟩
  exact Reachable.step
    (Reachable.step Reachable.start (Step.askStart 5 dsA (by decide)))
    (Step.sendFail ⟨0, "a", 5, Phase.sentPending⟩ "network error" (by decide) rfl)

/-- Claim C3 (amended): in every reachable state of the correlation
registry, every identity held in the last-question slot either has an entry
in the pending-questions mapping, or belongs to an ask call that is still
awaiting its transport send or whose send failed — a failed or in-flight
send may leave the slot holding an unregistered identity, because the slot
is overwritten before the send and registration happens only after it. -/
theorem c3_theorem : ∀ (cfg : String) (s : SysState), Reachable cfg s →
    ∀ q, s.lastQuestionId = some q →
      (lookupKey q s.pendingQuestions).isSome = true
      ∨ ∃ t ∈ s.tasks, t.qid = q ∧ (t.phase = Phase.sentPending ∨ t.phase = Phase.failed) :=
  fun _ _ h => (reachable_sysInv h).lastOk

/-- Claim C3, witness: the amended invariant evaluated at the reachable
state after a successful ask registration, where the slot identity "a" is
in the mapping. -/
theorem c3_witness :
    (lookupKey "a" (doSendOk (doAskStart startState 5 dsA)
      ⟨0, "a", 5, Phase.sentPending⟩).pendingQuestions).isSome = true
    ∨ ∃ t ∈ (doSendOk (doAskStart startState 5 dsA) ⟨0, "a", 5, Phase.sentPending⟩).tasks,
        t.qid = "a" ∧ (t.phase = Phase.sentPending ∨ t.phase = Phase.failed) :=
  c3_theorem "42" _
    (Reachable.step
      (Reachable.step Reachable.start (Step.askStart 5 dsA (by decide)))
      (Step.sendOk ⟨0, "a", 5, Phase.sentPending⟩ (by decide) rfl))
    "a" (by decide)

/-- Claim C4: a transport send failure aborts the ask before any
registration — neither starting an ask nor a failed send changes the
pending-questions mapping — and the failure is surfaced as the -32000
tool-call error built from the thrown message; in every reachable state,
every response frame addressed to an ask_user request is either the
content response carrying the resolved answer or that send-failure error —
never a timeout. -/
theorem c4_theorem :
    (∀ (s : SysState) (reqId : Nat) (ds : List (Fin 36)),
        (doAskStart s reqId ds).pendingQuestions = s.pendingQuestions)
    ∧ (∀ (s : SysState) (t : AskTask) (m : String),
        (doSendFail s t m).pendingQuestions = s.pendingQuestions ∧
        (doSendFail s t m).responses = s.responses ++
          [RpcResponse.rpcError t.reqId (-32000) ("Failed to get response: " ++ m)])
    ∧ (∀ (cfg : String) (s : SysState), Reachable cfg s →
        ∀ t ∈ s.tasks, ∀ r ∈ s.responses, ridOf r = t.reqId →
          (∃ a, t.phase = Phase.responded a ∧ r = RpcResponse.callResult t.reqId a)
          ∨ (∃ m, t.phase = Phase.failed ∧
              r = RpcResponse.rpcError t.reqId (-32000) ("Failed to get response: " ++ m))) := by
  refine ⟨fun s reqId ds => rfl, fun s t m => ⟨rfl, rfl⟩, ?_⟩
  intro cfg s h t ht r hr hrid
  exact (reachable_sysInv h).respChar t ht r hr hrid

/-- Claim C4, witness: the theorem evaluated on the reachable state after a
failed send, whose only response is the send-failure error for the ask. -/
theorem c4_witness :
    (doAskStart startState 1 dsA).pendingQuestions = startState.pendingQuestions ∧
    (doSendFail (doAskStart startState 1 dsA) ⟨0, "a", 1, Phase.sentPending⟩
      "boom").pendingQuestions = (doAskStart startState 1 dsA).pendingQuestions ∧
    ((∃ a, (⟨0, "a", 1, Phase.failed⟩ : AskTask).phase = Phase.responded a ∧
        RpcResponse.rpcError 1 (-32000) ("Failed to get response: " ++ "boom") =
          RpcResponse.callResult 1 a)
      ∨ (∃ m, (⟨0, "a", 1, Phase.failed⟩ : AskTask).phase = Phase.failed ∧
          RpcResponse.rpcError 1 (-32000) ("Failed to get response: " ++ "boom") =
            RpcResponse.rpcError 1 (-32000) ("Failed to get response: " ++ m))) := by
  refine ⟨c4_theorem.1 startState 1 dsA, (c4_theorem.2.1 (doAskStart startState 1 dsA)
    ⟨0, "a", 1, Phase.sentPending⟩ "boom").1, ?_⟩
  exact c4_theorem.2.2 "42"
    (doSendFail (doAskStart startState 1 dsA) ⟨0, "a", 1, Phase.sentPending⟩ "boom")
    (Reachable.step
      (Reachable.step Reachable.start (Step.askStart 1 dsA (by decide)))
      (Step.sendFail ⟨0, "a", 1, Phase.sentPending⟩ "boom" (by decide) rfl))
    ⟨0, "a", 1, Phase.failed⟩ (by decide)
    (RpcResponse.rpcError 1 (-32000) ("Failed to get response: " ++ "boom")) (by decide) rfl

/-- Claim C5: every registered continuation is invoked at most once. In
every reachable state the continuation-invocation history has no repeated
token and no still-waiting continuation appears in it; moreover, once a
message resolves an identity, a second message whose candidate is that same
identity (be it by quote or by fallback) invokes no continuation and leaves
the registry unchanged. -/
theorem c5_theorem :
    (∀ (cfg : String) (s : SysState), Reachable cfg s →
        (s.resolved.map Prod.fst).Nodup ∧
        ∀ t ∈ s.tasks, t.phase = Phase.waiting → t.tid ∉ s.resolved.map Prod.fst)
    ∧ (∀ (cfg : String) (st : BotState) (msg msg2 : Message) (tok : Nat) (ans q : String),
        (st.pendingQuestions.map Prod.fst).Nodup →
        (handleMessage cfg st msg).2 = some (tok, ans) →
        candidateOf st msg = some q →
        candidateOf (handleMessage cfg st msg).1 msg2 = some q →
        handleMessage cfg (handleMessage cfg st msg).1 msg2 =
          ((handleMessage cfg st msg).1, none)) := by
  constructor
  · intro cfg s h
    exact ⟨(reachable_sysInv h).resolvedNodup, (reachable_sysInv h).waitingFresh⟩
  · intro cfg st msg msg2 tok ans q hnd hres hcand hcand2
    rcases handleMessage_some hres with ⟨q2, htext, hchat, hans, hcand2a, hqne2, hlk2, hst1⟩
    have hqq : q2 = q := by
      rw [hcand2a] at hcand
      exact Option.some.inj hcand
    have hlknone : lookupKey q (handleMessage cfg st msg).1.pendingQuestions = none := by
      rw [hst1]
      show lookupKey q (eraseKey q2 st.pendingQuestions) = none
      rw [hqq]
      exact lookupKey_eraseKey_self hnd
    rcases handleMessage_cases cfg (handleMessage cfg st msg).1 msg2 with he |
      ⟨q3, tok3, t3, _, _, _, h4, _, h6, he⟩
    · exact he
    · rw [hcand2] at h4
      have hq3 : q3 = q := (Option.some.inj h4).symm
      rw [hq3, hlknone] at h6
      exact Option.noConfusion h6

/-- Claim C5, witness: the theorem evaluated at the reachable state where
one question was asked, registered and answered (its token appears once in
the history), and at a concrete registry where an answered question's
identity is quoted a second time and resolves nothing. -/
theorem c5_witness :
    ((doDeliver "42" (doSendOk (doAskStart startState 1 dsA) ⟨0, "a", 1, Phase.sentPending⟩)
        ⟨"42", some "yes", none⟩).resolved.map Prod.fst).Nodup ∧
    handleMessage "42"
      (handleMessage "42" ⟨[("a", 0)], some "a"⟩ ⟨"42", some "yes", none⟩).1
      ⟨"42", some "again", some (taggedText "a" "Color?")⟩ =
      ((handleMessage "42" ⟨[("a", 0)], some "a"⟩ ⟨"42", some "yes", none⟩).1, none) := by
  constructor
  · exact (c5_theorem.1 "42"
      (doDeliver "42" (doSendOk (doAskStart startState 1 dsA) ⟨0, "a", 1, Phase.sentPending⟩)
        ⟨"42", some "yes", none⟩)
      (Reachable.step
        (Reachable.step
          (Reachable.step Reachable.start (Step.askStart 1 dsA (by decide)))
          (Step.sendOk ⟨0, "a", 1, Phase.sentPending⟩ (by decide) rfl))
        (Step.deliver ⟨"42", some "yes", none⟩))).1
  · exact c5_theorem.2 "42" ⟨[("a", 0)], some "a"⟩ ⟨"42", some "yes", none⟩
      ⟨"42", some "again", some (taggedText "a" "Color?")⟩ 0 "yes" "a"
      (by decide) (by decide) (by decide) (by decide)

/-- Claim C6, counterexample: identity generation is
Math.random().toString(36).substring(7); for Math.random() = 0.5 the
base-36 representation is "0.i" (single fractional digit 18) and the
substring is the empty string, which does not match [a-z0-9]+ and is not
recovered by the reply parse from its tagged text. -/
theorem c6_counterexample :
    genId [(18 : Fin 36)] = "" ∧
    isTagToken (genId [(18 : Fin 36)]) = false ∧
    findTag (taggedText (genId [(18 : Fin 36)]) "Color?").data ≠
      some (genId [(18 : Fin 36)]) := by
  decide

/-- Claim C6 (amended): for every question whose generated identity is
nonempty — that is, whenever the Math.random() value has more than five
base-36 fractional digits — the identity matches [a-z0-9]+, the tagged
outbound text is exactly the hash sign, the identity, a newline and the
question text, and applying the Reply Matcher's parse to that tagged text
recovers exactly the same identity. -/
theorem c6_theorem : ∀ (ds : List (Fin 36)) (question : String), 5 < ds.length →
    isTagToken (genId ds) = true ∧
    taggedText (genId ds) question = "#" ++ genId ds ++ "\n" ++ question ∧
    findTag (taggedText (genId ds) question).data = some (genId ds) := by
  intro ds question h
  have h1 := genId_isTagToken h
  exact ⟨h1, rfl, findTag_tagged _ question h1⟩

/-- Claim C6, witness: the round trip evaluated on the six-digit random
value whose identity is "a". -/
theorem c6_witness :
    isTagToken (genId dsA) = true ∧
    taggedText (genId dsA) "Color?" = "#" ++ genId dsA ++ "\n" ++ "Color?" ∧
    findTag (taggedText (genId dsA) "Color?").data = some (genId dsA) :=
  c6_theorem dsA "Color?" (by decide)

/-- Claim C7: frame assembly yields exactly the newline-delimited lines of
the concatenated stream regardless of how it is split into chunks — the
emitted frames and the buffered trailing partial line are those of the
split of the whole concatenation — and a frame that fails to parse is
dropped: no response is emitted for it and the surrounding frames are
processed exactly as if it were absent. -/
theorem c7_theorem :
    (∀ chunks : List (List Char),
        feedFrom [] chunks =
          ((splitNl chunks.flatten).dropLast, (splitNl chunks.flatten).getLastD []))
    ∧ (∀ (parse : List Char → Option Request) (run : ToolRun)
        (pre post : List (List Char)) (bad : List Char), parse bad = none →
        handleFrames parse run (pre ++ bad :: post) =
          handleFrames parse run pre ++ handleFrames parse run post) := by
  constructor
  · intro chunks
    have h := feedFrom_spec chunks [] (by simp)
    rw [List.nil_append] at h
    exact h
  · intro parse run pre post bad hbad
    have hskip : handleFrames parse run (bad :: post) = handleFrames parse run post := by
      show (match parse bad with
        | none => handleFrames parse run post
        | some req => handleRequestModel run req :: handleFrames parse run post) =
        handleFrames parse run post
      rw [hbad]
    rw [handleFrames_append, hskip]

/-- Claim C7, witness: the chunked stream "a" + "\nb" assembles into the
single frame "a" with "b" buffered, and a frame rejected by the parser is
skipped while its neighbours are processed. -/
theorem c7_witness :
    feedFrom [] [['a'], ['\n', 'b']] = ([['a']], ['b']) ∧
    handleFrames (fun _ => none)
      ⟨fun _ => Except.error "e", fun _ => Except.ok (), fun _ => Except.ok (),
        fun _ => Except.ok ()⟩ ([['x']] ++ ['y'] :: [['z']]) =
      handleFrames (fun _ => none)
        ⟨fun _ => Except.error "e", fun _ => Except.ok (), fun _ => Except.ok (),
          fun _ => Except.ok ()⟩ [['x']] ++
      handleFrames (fun _ => none)
        ⟨fun _ => Except.error "e", fun _ => Except.ok (), fun _ => Except.ok (),
          fun _ => Except.ok ()⟩ [['z']] := by
  constructor
  · rw [c7_theorem.1 [['a'], ['\n', 'b']]]
    decide
  · exact c7_theorem.2 (fun _ => none) _ [['x']] [['z']] ['y'] rfl

/-- Claim C8: a parsed request with a method other than initialize,
tools/list and tools/call is answered with a -32601 error naming the
method; a tools/call naming an unknown tool is answered with a -32000
error naming the unknown tool; and the tools/list result is exactly the
catalogue of the four tools ask_user (question: string, required),
notify_user (message: string, required), send_file (filePath: string,
required) and zip_project (directory, optional). -/
theorem c8_theorem :
    (∀ (run : ToolRun) (req : Request),
        req.method ≠ "initialize" → req.method ≠ "tools/list" → req.method ≠ "tools/call" →
        handleRequestModel run req =
          RpcResponse.rpcError req.id (-32601) ("Method not found: " ++ req.method))
    ∧ (∀ (run : ToolRun) (req : Request), req.method = "tools/call" →
        req.params.name ≠ "ask_user" → req.params.name ≠ "notify_user" →
        req.params.name ≠ "send_file" → req.params.name ≠ "zip_project" →
        handleRequestModel run req =
          RpcResponse.rpcError req.id (-32000) ("Unknown tool: " ++ req.params.name))
    ∧ (∀ (run : ToolRun) (req : Request), req.method = "tools/list" →
        handleRequestModel run req = RpcResponse.toolsResult req.id toolsCatalogue)
    ∧ toolsCatalogue.map Tool.name = ["ask_user", "notify_user", "send_file", "zip_project"]
    ∧ toolsCatalogue.map Tool.required = [["question"], ["message"], ["filePath"], []]
    ∧ toolsCatalogue.map (fun tl => tl.properties.map (fun p => (p.propName, p.propType))) =
        [[("question", "string")], [("message", "string")],
         [("filePath", "string")], [("directory", "string")]] := by
  refine ⟨?_, ?_, ?_, by decide, by decide, by decide⟩
  · intro run req h1 h2 h3
    unfold handleRequestModel
    rw [if_neg h1, if_neg h2, if_neg h3]
  · intro run req h h1 h2 h3 h4
    unfold handleRequestModel callToolModel
    rw [if_neg (by rw [h]; decide), if_neg (by rw [h]; decide), if_pos h]
    rw [if_neg h1, if_neg h2, if_neg h3, if_neg h4]
  · intro run req h
    unfold handleRequestModel
    rw [if_neg (by rw [h]; decide), if_pos h]

/-- Claim C8, witness: the router evaluated on an unknown method, an
unknown tool and a tools/list request. -/
theorem c8_witness :
    handleRequestModel
      ⟨fun _ => Except.error "e", fun _ => Except.ok (), fun _ => Except.ok (),
        fun _ => Except.ok ()⟩ ⟨7, "foo", ⟨"x", ⟨none, none, none, none⟩⟩⟩ =
      RpcResponse.rpcError 7 (-32601) ("Method not found: " ++ "foo") ∧
    handleRequestModel
      ⟨fun _ => Except.error "e", fun _ => Except.ok (), fun _ => Except.ok (),
        fun _ => Except.ok ()⟩ ⟨8, "tools/call", ⟨"bogus", ⟨none, none, none, none⟩⟩⟩ =
      RpcResponse.rpcError 8 (-32000) ("Unknown tool: " ++ "bogus") ∧
    handleRequestModel
      ⟨fun _ => Except.error "e", fun _ => Except.ok (), fun _ => Except.ok (),
        fun _ => Except.ok ()⟩ ⟨9, "tools/list", ⟨"x", ⟨none, none, none, none⟩⟩⟩ =
      RpcResponse.toolsResult 9 toolsCatalogue :=
  ⟨c8_theorem.1 _ _ (by decide) (by decide) (by decide),
   c8_theorem.2.1 _ _ rfl (by decide) (by decide) (by decide) (by decide),
   c8_theorem.2.2.1 _ _ rfl⟩

/-- Claim C9: while an ask_user call is pending (its task waiting on an
unanswered question), a concurrently arriving notify_user tools/call can be
taken in and completed by the event loop — two enabled steps whose second
emits the notification's own response frame — and a tools/list request is
answered in one enabled step; in the resulting states the pending ask is
still waiting, so neither response waited for the question to be
answered. -/
theorem c9_theorem : ∀ (cfg : String) (s : SysState), Reachable cfg s →
    ∀ t ∈ s.tasks, t.phase = Phase.waiting →
      ∃ (reqId : Nat) (s1 s2 s3 : SysState),
        Step cfg s s1 ∧ Step cfg s1 s2 ∧
        RpcResponse.callResult reqId "Notification sent successfully" ∈ s2.responses ∧
        t ∈ s2.tasks ∧ t.phase = Phase.waiting ∧
        Step cfg s s3 ∧
        RpcResponse.toolsResult reqId toolsCatalogue ∈ s3.responses ∧
        t ∈ s3.tasks := by
  intro cfg s _ t ht hw
  refine ⟨freshReqId s, doNotifyStart s (freshReqId s),
    doNotifyOk (doNotifyStart s (freshReqId s)) ⟨freshReqId s, NPhase.nsending⟩,
    doToolsList s (freshReqId s), ?_, ?_, ?_, ?_, hw, ?_, ?_, ?_⟩
  · exact Step.notifyStart _ (freshReqId_not_mem s)
  · refine Step.notifyOk ⟨freshReqId s, NPhase.nsending⟩ ?_ rfl
    show (⟨freshReqId s, NPhase.nsending⟩ : NotifyTask) ∈
      s.notifies ++ [⟨freshReqId s, NPhase.nsending⟩]
    exact List.mem_append_right _ (List.mem_singleton.mpr rfl)
  · show RpcResponse.callResult (freshReqId s) "Notification sent successfully" ∈
      s.responses ++ [RpcResponse.callResult (freshReqId s) "Notification sent successfully"]
    exact List.mem_append_right _ (List.mem_singleton.mpr rfl)
  · exact ht
  · exact Step.listTools _ (freshReqId_not_mem s)
  · show RpcResponse.toolsResult (freshReqId s) toolsCatalogue ∈
      s.responses ++ [RpcResponse.toolsResult (freshReqId s) toolsCatalogue]
    exact List.mem_append_right _ (List.mem_singleton.mpr rfl)
  · exact ht

/-- Claim C9, witness: the liveness theorem evaluated at the reachable
state with one registered, unanswered question. -/
theorem c9_witness :
    ∃ (reqId : Nat) (s1 s2 s3 : SysState),
      Step "42" (doSendOk (doAskStart startState 1 dsA) ⟨0, "a", 1, Phase.sentPending⟩) s1 ∧
      Step "42" s1 s2 ∧
      RpcResponse.callResult reqId "Notification sent successfully" ∈ s2.responses ∧
      (⟨0, "a", 1, Phase.waiting⟩ : AskTask) ∈ s2.tasks ∧
      (⟨0, "a", 1, Phase.waiting⟩ : AskTask).phase = Phase.waiting ∧
      Step "42" (doSendOk (doAskStart startState 1 dsA) ⟨0, "a", 1, Phase.sentPending⟩) s3 ∧
      RpcResponse.toolsResult reqId toolsCatalogue ∈ s3.responses ∧
      (⟨0, "a", 1, Phase.waiting⟩ : AskTask) ∈ s3.tasks :=
  c9_theorem "42" (doSendOk (doAskStart startState 1 dsA) ⟨0, "a", 1, Phase.sentPending⟩)
    (Reachable.step
      (Reachable.step Reachable.start (Step.askStart 1 dsA (by decide)))
      (Step.sendOk ⟨0, "a", 1, Phase.sentPending⟩ (by decide) rfl))
    ⟨0, "a", 1, Phase.waiting⟩ (by decide) rfl

/-- Claim C10: whatever the outcomes of archiving and sending, after the
zip_project branch finishes the archive file is gone from the output path;
an archive left by a previous run is deleted before the new one is created
(the event trace begins delete, create); a fresh run begins with the
creation; and the branch answers with the success response exactly when
both the archive step and the send step succeed. -/
theorem c10_theorem : ∀ (fs0 : FsState) (z : ZipOutcome) (snd : SendOutcome) (reqId : Nat),
    (zipCallModel fs0 z snd reqId).1.zipExists = false
    ∧ (fs0.zipExists = true → (zipCallModel fs0 z snd reqId).2.1.take 2 =
        [FsEvent.deleteZip, FsEvent.createZip])
    ∧ (fs0.zipExists = false → (zipCallModel fs0 z snd reqId).2.1.take 1 =
        [FsEvent.createZip])
    ∧ ((zipCallModel fs0 z snd reqId).2.2 =
        RpcResponse.callResult reqId "Project zipped and sent successfully" ↔
        (z = ZipOutcome.zipOk ∧ snd = SendOutcome.sendOk)) := by
  intro fs0 z snd reqId
  obtain ⟨b⟩ := fs0
  cases b <;> cases z <;> cases snd <;>
    simp [zipCallModel, zipProjectModel, fsCleanup]

/-- Claim C10, witness: the handler evaluated with a stale archive present
and both steps succeeding. -/
theorem c10_witness :
    (zipCallModel ⟨true⟩ ZipOutcome.zipOk SendOutcome.sendOk 3).1.zipExists = false ∧
    (zipCallModel ⟨true⟩ ZipOutcome.zipOk SendOutcome.sendOk 3).2.1.take 2 =
      [FsEvent.deleteZip, FsEvent.createZip] :=
  ⟨(c10_theorem ⟨true⟩ ZipOutcome.zipOk SendOutcome.sendOk 3).1,
   (c10_theorem ⟨true⟩ ZipOutcome.zipOk SendOutcome.sendOk 3).2.1 rfl⟩
